import Mathlib

/-!
Verification development for the Universe Builder backend (FastAPI + SQLAlchemy).

The definitions below are a shallow embedding of the data model and of the
endpoint handlers in `app/database.py`, `app/routers/projects.py`,
`app/routers/generators.py`, `app/routers/scenarios.py` and
`app/routers/manuscript.py`.  The database is modelled as lists of rows, one
list per table; an endpoint is a function from the database (plus its request
arguments) to `Except HErr DB`, where an `HErr` carries the HTTP status code
of the `HTTPException` raised by the handler.  SQLAlchemy session mutation is
modelled by returning the updated table lists.  The bcrypt primitives of
`passlib` (`pwd_context.hash` / `pwd_context.verify`) are external
collaborators and are passed in as function parameters.
-/

namespace UniverseBuilder

/-! ## Characters used when building or parsing JSON text -/

def chQuote : Char := Char.ofNat 34

def chBackslash : Char := Char.ofNat 92

def chLBrace : Char := Char.ofNat 123

def chRBrace : Char := Char.ofNat 125

def chLBrack : Char := Char.ofNat 91

def chRBrack : Char := Char.ofNat 93

def chComma : Char := Char.ofNat 44

def chColon : Char := Char.ofNat 58

def chSlash : Char := Char.ofNat 47

def chMinus : Char := Char.ofNat 45

def chDot : Char := Char.ofNat 46

/-! ## Python-style string helpers -/

/-- Boolean prefix test on character lists (`needle` a prefix of `hay`). -/
def listPrefixB : List Char → List Char → Bool
  | [], _ => true
  | _ :: _, [] => false
  | a :: as2, b :: bs => a == b && listPrefixB as2 bs

/-- Boolean infix test on character lists, modelling Python `needle in hay`. -/
def listInfixB (needle : List Char) : List Char → Bool
  | [] => listPrefixB needle []
  | c :: t => listPrefixB needle (c :: t) || listInfixB needle t

/-- Python substring containment `needle in hay` on strings. -/
def pyIn (needle hay : String) : Bool := listInfixB needle.toList hay.toList

/-- Python truthiness of an optional string: `None` and `""` are falsy. -/
def optStrTruthy : Option String → Bool
  | none => false
  | some s => !(s == "")

/-- Python `a or default` on optional strings (`None` and `""` both fall back). -/
def pyStrOr (v : Option String) (d : String) : String :=
  match v with
  | none => d
  | some s => if s == "" then d else s

/-- First-match lookup in an association list (a Python dict built by
insertion with newer bindings consed at the head). -/
def mapLookup (m : List (String × String)) (k : String) : Option String :=
  (m.find? (fun p => p.1 == k)).map (fun p => p.2)

/-! ## JSON values, `json.dumps` and `json.loads`

The card list fields, the worldview content column and the scenario themes
column hold JSON text.  `JVal` is the value domain of Python `json.loads`;
numbers keep their lexeme since none of the verified code inspects numeric
values. -/

inductive JVal where
  | jnull : JVal
  | jbool (b : Bool) : JVal
  | jnum (lex : String) : JVal
  | jstr (s : String) : JVal
  | jarr (items : List JVal) : JVal
  | jobj (fields : List (String × JVal)) : JVal

/-- Escape one character as `json.dumps` does for the characters the
application actually stores (quote, backslash and the common controls). -/
def jsonEscapeChar (c : Char) : List Char :=
  if c = chQuote then [chBackslash, chQuote]
  else if c = chBackslash then [chBackslash, chBackslash]
  else if c = '\n' then [chBackslash, 'n']
  else if c = '\t' then [chBackslash, 't']
  else if c = '\r' then [chBackslash, 'r']
  else [c]

/-- JSON string literal for `s`, as produced by `json.dumps` with
`ensure_ascii=False`. -/
def json_dumps_string (s : String) : String :=
  String.mk (chQuote :: ((s.toList.map jsonEscapeChar).flatten ++ [chQuote]))

/-- The serialization `json.dumps(xs)` of a list of strings, with the default
separator `", "`. -/
def jsonDumpsList (xs : List String) : String :=
  "[" ++ String.intercalate ", " (xs.map json_dumps_string) ++ "]"

mutual

/-- Serialization of a `JVal`, as `json.dumps` with default separators. -/
def jDump : JVal → String
  | JVal.jnull => "null"
  | JVal.jbool b => if b then "true" else "false"
  | JVal.jnum lex => lex
  | JVal.jstr s => json_dumps_string s
  | JVal.jarr items => "[" ++ String.intercalate ", " (jDumpList items) ++ "]"
  | JVal.jobj fields =>
      String.singleton chLBrace ++ String.intercalate ", " (jDumpFields fields) ++
        String.singleton chRBrace

def jDumpList : List JVal → List String
  | [] => []
  | v :: vs => jDump v :: jDumpList vs

def jDumpFields : List (String × JVal) → List String
  | [] => []
  | p :: ps => (json_dumps_string p.1 ++ ": " ++ jDump p.2) :: jDumpFields ps

end

/-- Skip JSON whitespace. -/
def jsonWs : List Char → List Char
  | [] => []
  | c :: cs => if c = ' ' || c = '\n' || c = '\t' || c = '\r' then jsonWs cs else c :: cs

/-- Hexadecimal digit value. -/
def hexVal (c : Char) : Option Nat :=
  if c.isDigit then some (c.toNat - 48)
  else if 97 ≤ c.toNat && c.toNat ≤ 102 then some (c.toNat - 87)
  else if 65 ≤ c.toNat && c.toNat ≤ 70 then some (c.toNat - 55)
  else none

/-- Parse the body of a JSON string literal (after the opening quote),
returning the decoded characters and the rest of the input. -/
def parseStrBody (cs : List Char) : Option (List Char × List Char) :=
  match cs with
  | [] => none
  | c :: rest =>
    if c = chQuote then some ([], rest)
    else if c = chBackslash then
      match rest with
      | [] => none
      | e :: rest2 =>
        if e = chQuote then (parseStrBody rest2).map (fun p => (chQuote :: p.1, p.2))
        else if e = chBackslash then (parseStrBody rest2).map (fun p => (chBackslash :: p.1, p.2))
        else if e = chSlash then (parseStrBody rest2).map (fun p => (chSlash :: p.1, p.2))
        else if e = 'n' then (parseStrBody rest2).map (fun p => ('\n' :: p.1, p.2))
        else if e = 't' then (parseStrBody rest2).map (fun p => ('\t' :: p.1, p.2))
        else if e = 'r' then (parseStrBody rest2).map (fun p => ('\r' :: p.1, p.2))
        else if e = 'b' then (parseStrBody rest2).map (fun p => (Char.ofNat 8 :: p.1, p.2))
        else if e = 'f' then (parseStrBody rest2).map (fun p => (Char.ofNat 12 :: p.1, p.2))
        else if e = 'u' then
          match rest2 with
          | h1 :: h2 :: h3 :: h4 :: rest3 =>
            match hexVal h1, hexVal h2, hexVal h3, hexVal h4 with
            | some a, some b, some c2, some d =>
              (parseStrBody rest3).map
                (fun p => (Char.ofNat (((a * 16 + b) * 16 + c2) * 16 + d) :: p.1, p.2))
            | _, _, _, _ => none
          | _ => none
        else none
    else if c.toNat < 32 then none
    else (parseStrBody rest).map (fun p => (c :: p.1, p.2))
termination_by cs.length
decreasing_by
  all_goals simp_all [List.length_cons]
  all_goals omega

/-- Parse the fractional part of a JSON number (possibly empty). -/
def parseFrac (cs : List Char) : Option (List Char × List Char) :=
  match cs with
  | c :: rest =>
    if c = chDot then
      let ds := rest.takeWhile Char.isDigit
      if ds.isEmpty then none else some (chDot :: ds, rest.dropWhile Char.isDigit)
    else some ([], cs)
  | [] => some ([], cs)

/-- Parse the exponent part of a JSON number (possibly empty). -/
def parseExp (cs : List Char) : Option (List Char × List Char) :=
  match cs with
  | c :: rest =>
    if c = 'e' || c = 'E' then
      match rest with
      | s :: rest2 =>
        if s = '+' || s = chMinus then
          let ds := rest2.takeWhile Char.isDigit
          if ds.isEmpty then none else some (c :: s :: ds, rest2.dropWhile Char.isDigit)
        else
          let ds := rest.takeWhile Char.isDigit
          if ds.isEmpty then none else some (c :: ds, rest.dropWhile Char.isDigit)
      | [] => none
    else some ([], cs)
  | [] => some ([], cs)

/-- Parse a JSON number, returning its lexeme. -/
def parseNum (cs : List Char) : Option (String × List Char) :=
  let (neg, cs1) :=
    match cs with
    | c :: rest => if c = chMinus then ([chMinus], rest) else (([] : List Char), cs)
    | [] => ([], cs)
  let ip := cs1.takeWhile Char.isDigit
  let cs2 := cs1.dropWhile Char.isDigit
  if ip.isEmpty then none
  else if ip.length > 1 && ip.head? = some '0' then none
  else
    match parseFrac cs2 with
    | none => none
    | some (fp, cs3) =>
      match parseExp cs3 with
      | none => none
      | some (ep, cs4) => some (String.mk (neg ++ ip ++ fp ++ ep), cs4)

mutual

/-- Fuel-indexed JSON value parser (recursive descent). -/
def parseVal : Nat → List Char → Option (JVal × List Char)
  | 0, _ => none
  | n + 1, cs =>
    match jsonWs cs with
    | [] => none
    | c :: rest =>
      if c = chQuote then (parseStrBody rest).map (fun p => (JVal.jstr (String.mk p.1), p.2))
      else if c = chLBrack then
        match jsonWs rest with
        | d :: rest2 => if d = chRBrack then some (JVal.jarr [], rest2)
            else (parseItems n (jsonWs rest)).map (fun p => (JVal.jarr p.1, p.2))
        | [] => none
      else if c = chLBrace then
        match jsonWs rest with
        | d :: rest2 => if d = chRBrace then some (JVal.jobj [], rest2)
            else (parseFields n (jsonWs rest)).map (fun p => (JVal.jobj p.1, p.2))
        | [] => none
      else if c = 'n' then
        match rest with
        | 'u' :: 'l' :: 'l' :: r => some (JVal.jnull, r)
        | _ => none
      else if c = 't' then
        match rest with
        | 'r' :: 'u' :: 'e' :: r => some (JVal.jbool true, r)
        | _ => none
      else if c = 'f' then
        match rest with
        | 'a' :: 'l' :: 's' :: 'e' :: r => some (JVal.jbool false, r)
        | _ => none
      else (parseNum (c :: rest)).map (fun p => (JVal.jnum p.1, p.2))

/-- Parse the items of a JSON array after a first non-`]` character. -/
def parseItems : Nat → List Char → Option (List JVal × List Char)
  | 0, _ => none
  | n + 1, cs =>
    match parseVal n cs with
    | none => none
    | some (v, cs1) =>
      match jsonWs cs1 with
      | d :: rest =>
        if d = chComma then
          match parseItems n rest with
          | none => none
          | some (vs, cs2) => some (v :: vs, cs2)
        else if d = chRBrack then some ([v], rest)
        else none
      | [] => none

/-- Parse the fields of a JSON object after a first non-brace character. -/
def parseFields : Nat → List Char → Option (List (String × JVal) × List Char)
  | 0, _ => none
  | n + 1, cs =>
    match jsonWs cs with
    | c :: rest =>
      if c = chQuote then
        match parseStrBody rest with
        | none => none
        | some (k, cs1) =>
          match jsonWs cs1 with
          | d :: cs2 =>
            if d = chColon then
              match parseVal n cs2 with
              | none => none
              | some (v, cs3) =>
                match jsonWs cs3 with
                | e :: cs4 =>
                  if e = chComma then
                    match parseFields n cs4 with
                    | none => none
                    | some (fsx, cs5) => some ((String.mk k, v) :: fsx, cs5)
                  else if e = chRBrace then some ([(String.mk k, v)], cs4)
                  else none
                | [] => none
            else none
          | [] => none
      else none
    | [] => none

end

/-- Python `json.loads` on a whole string: parse one value and require only
whitespace after it. -/
def json_loads (s : String) : Option JVal :=
  let cs := s.toList
  match parseVal (cs.length + 2) cs with
  | some (v, rest) => if (jsonWs rest).isEmpty then some v else none
  | none => none

/-! ## The relational schema (`app/database.py`)

Each SQLAlchemy model becomes a row structure; the database is one list of
rows per table.  The card list fields `goal`/`personality`/`abilities`/`quote`
are `Column(JSON)`: through the application they only ever hold a JSON list of
strings (written by `update_card`), a Python string (written by
`add_card_to_project` / `create_sample_project`, which pass `json.dumps(...)`
text into the JSON column, and by legacy rows), or NULL — `FieldVal` captures
exactly these three shapes. -/

inductive FieldVal where
  | vnull : FieldVal
  | vlist (xs : List String) : FieldVal
  | vstr (s : String) : FieldVal
deriving DecidableEq

structure ProjectRow where
  id : String
  name : String
  hashed_password : Option String
deriving DecidableEq

structure GroupRow where
  id : String
  project_id : String
  name : String
deriving DecidableEq

structure CardRow where
  id : String
  group_id : String
  name : String
  description : Option String
  goal : FieldVal
  personality : FieldVal
  abilities : FieldVal
  quote : FieldVal
  introduction_story : Option String
  ordering : Option Int
deriving DecidableEq

structure WorldviewRow where
  project_id : String
  content : Option String
deriving DecidableEq

structure WorldviewGroupRow where
  id : String
  project_id : String
  name : String
deriving DecidableEq

/-- Worldview card row.  The `ordering` column is nullable in the schema but
every row the application writes carries an integer, so it is embedded as
`Int`. -/
structure WorldviewCardRow where
  id : String
  group_id : String
  title : String
  content : String
  ordering : Int
deriving DecidableEq

structure RelationshipRow where
  id : String
  project_id : String
  source_character_id : String
  target_character_id : String
  type : String
  description : Option String
  phase_order : Int
deriving DecidableEq

structure ScenarioRow where
  id : String
  project_id : String
  title : String
  summary : Option String
  themes : Option String
  synopsis : Option String
deriving DecidableEq

structure PlotPointRow where
  id : String
  scenario_id : String
  title : String
  content : Option String
  ordering : Int
  scene_draft : Option String
deriving DecidableEq

structure ManuscriptBlockRow where
  id : String
  project_id : String
  title : String
  content : Option String
  ordering : Int
  word_count : Option Int
  char_count : Option Int
deriving DecidableEq

structure DB where
  projects : List ProjectRow
  groups : List GroupRow
  cards : List CardRow
  worldviews : List WorldviewRow
  worldview_groups : List WorldviewGroupRow
  worldview_cards : List WorldviewCardRow
  relationships : List RelationshipRow
  scenarios : List ScenarioRow
  plot_points : List PlotPointRow
  manuscript_blocks : List ManuscriptBlockRow
deriving DecidableEq

/-- HTTP error raised by a handler (`HTTPException(status_code=...)`). -/
structure HErr where
  status : Nat
deriving DecidableEq

/-! ## Access guard (`projects.py`, `get_project_if_accessible`) -/

inductive GuardResult where
  | notFound : GuardResult
  | forbidden : GuardResult
  | ok (project : ProjectRow) : GuardResult
deriving DecidableEq

/-- The dependency `get_project_if_accessible(project_id, x_project_password,
db)`: 404 when the project does not exist; if its `hashed_password` column is
truthy, 403 unless the header is truthy and bcrypt-verifies against the hash.
`verify` is `pwd_context.verify`, an external collaborator. -/
def get_project_if_accessible (verify : String → String → Bool)
    (projects : List ProjectRow) (project_id : String)
    (x_project_password : Option String) : GuardResult :=
  match projects.find? (fun p => p.id == project_id) with
  | none => GuardResult.notFound
  | some project =>
    if optStrTruthy project.hashed_password then
      if !(optStrTruthy x_project_password)
          || !(verify (x_project_password.getD "") (project.hashed_password.getD "")) then
        GuardResult.forbidden
      else GuardResult.ok project
    else GuardResult.ok project

/-- Run a handler body under the guard dependency, translating the guard
outcome into the `HTTPException` status codes 404 and 403. -/
def withProject (verify : String → String → Bool) (db : DB) (project_id : String)
    (pw : Option String) (k : ProjectRow → Except HErr DB) : Except HErr DB :=
  match get_project_if_accessible verify db.projects project_id pw with
  | GuardResult.notFound => Except.error ⟨404⟩
  | GuardResult.forbidden => Except.error ⟨403⟩
  | GuardResult.ok p => k p

/-! ## Project creation (`projects.py`, `create_project`) -/

/-- The literal `json.dumps` of the default worldview object written by
`create_project`. -/
def default_worldview_content : String :=
  "\x7b\"logline\": \"\", \"genre\": \"\", \"rules\": []\x7d"

/-- Endpoint `POST /api/v1/projects`: creates the project row, the `"미분류"`
(Uncategorized) group, the default worldview and the `"메인 시나리오"`
scenario in one transaction.  `hash` is `pwd_context.hash`; `ts` is
`int(time.time() * 1000)`. -/
def create_project (hash : String → String) (ts : Nat) (req_name : String)
    (req_password : Option String) (db : DB) : DB :=
  let new_project_id := "project-" ++ toString ts
  let hashed :=
    if optStrTruthy req_password then some (hash (req_password.getD "")) else none
  { db with
    projects := db.projects ++ [⟨new_project_id, req_name, hashed⟩],
    groups := db.groups ++ [⟨"group-uncategorized-" ++ toString ts, new_project_id, "미분류"⟩],
    worldviews := db.worldviews ++ [⟨new_project_id, some default_worldview_content⟩],
    scenarios := db.scenarios ++
      [⟨"scen-" ++ toString ts, new_project_id, "메인 시나리오", none, none, some ""⟩] }

/-! ## Group deletion (`projects.py`, `delete_group`) -/

/-- Endpoint `DELETE /projects/{project_id}/groups/{group_id}`: guarded; 404 when the
group is not in this project, 400 when its name is `"미분류"`; otherwise the
group and (by `cascade="all, delete-orphan"`) its cards are removed. -/
def delete_group (verify : String → String → Bool) (db : DB) (project_id : String)
    (pw : Option String) (group_id : String) : Except HErr DB :=
  withProject verify db project_id pw fun proj =>
    match db.groups.find? (fun g => g.id == group_id && g.project_id == proj.id) with
    | none => Except.error ⟨404⟩
    | some g =>
      if g.name == "미분류" then Except.error ⟨400⟩
      else Except.ok { db with
        groups := db.groups.filter (fun g2 => !(g2.id == g.id)),
        cards := db.cards.filter (fun c => !(c.group_id == g.id)) }

/-! ## Card endpoints of `generators.py` (no password guard in the source) -/

/-- The `CharacterCard` request model of `generators.py`. -/
structure CharacterCard where
  name : String
  description : String
  goal : List String
  personality : List String
  abilities : List String
  quote : List String
  introduction_story : String

/-- The join `query(CardModel).join(GroupModel).filter(GroupModel.project_id
== project_id)` membership test for one card row. -/
def cardJoinsProject (db : DB) (c : CardRow) (project_id : String) : Bool :=
  ((db.groups.find? (fun g => g.id == c.group_id)).map
    (fun g => g.project_id == project_id)).getD false

/-- The row inserted by `add_card_to_project`: the list fields hold the
`json.dumps(...)` TEXT (a Python string assigned into a JSON column), and
`ordering = len(group.cards)` appends at the end. -/
def newCardRow (ts : Nat) (group_id : String) (card : CharacterCard) (card_count : Nat) :
    CardRow :=
  { id := "card-" ++ toString ts,
    group_id := group_id,
    name := card.name,
    description := some card.description,
    goal := FieldVal.vstr (if card.goal.isEmpty then "[]" else jsonDumpsList card.goal),
    personality :=
      FieldVal.vstr (if card.personality.isEmpty then "[]" else jsonDumpsList card.personality),
    abilities :=
      FieldVal.vstr (if card.abilities.isEmpty then "[]" else jsonDumpsList card.abilities),
    quote := FieldVal.vstr (if card.quote.isEmpty then "[]" else jsonDumpsList card.quote),
    introduction_story := some card.introduction_story,
    ordering := some (Int.ofNat card_count) }

/-- Endpoint `POST /projects/{project_id}/groups/{group_id}/cards`
(`add_card_to_project`): NOT guarded by the project password.  The new card
gets `ordering = len(group.cards)` and its list fields are stored as
`json.dumps(...)` strings (Python strings written into a JSON column). -/
def add_card_to_project (ts : Nat) (db : DB) (project_id group_id : String)
    (card : CharacterCard) : Except HErr DB :=
  match db.groups.find? (fun g => g.id == group_id && g.project_id == project_id) with
  | none => Except.error ⟨404⟩
  | some _ =>
    let card_count := (db.cards.filter (fun c => c.group_id == group_id)).length
    Except.ok { db with cards := db.cards ++ [newCardRow ts group_id card card_count] }

/-- Endpoint `DELETE /projects/{project_id}/groups/{group_id}/cards/{card_id}`
(`delete_card_from_project`): NOT guarded; deletes the row and commits —
there is no re-indexing of the remaining cards of the group. -/
def delete_card_from_project (db : DB) (project_id group_id card_id : String) :
    Except HErr DB :=
  match db.cards.find?
      (fun c => c.id == card_id && c.group_id == group_id && cardJoinsProject db c project_id) with
  | none => Except.error ⟨404⟩
  | some c => Except.ok { db with cards := db.cards.filter (fun c2 => !(c2.id == c.id)) }

/-- Endpoint `PUT /projects/{project_id}/cards/{card_id}/move` (`move_card`): NOT
guarded; rewrites the card's `group_id` without touching any ordering. -/
def move_card (db : DB) (project_id card_id target_group_id : String) : Except HErr DB :=
  match db.cards.find? (fun c => c.id == card_id && cardJoinsProject db c project_id) with
  | none => Except.error ⟨404⟩
  | some c =>
    Except.ok { db with cards :=
      (db.cards.map (fun c2 =>
        if c2.id == c.id then { c2 with group_id := target_group_id } else c2)) }

/-- The update loop shared by the three reorder endpoints:
`for index, x in enumerate(ids): UPDATE ... SET ordering = index WHERE
<touch row x>`.  `touch` is the SQL filter of the `UPDATE`, `setOrd` writes
the ordering column. -/
def applyOrderLoop {α : Type} (touch : α → String → Bool) (setOrd : α → Nat → α) :
    Nat → List String → List α → List α
  | _, [], rows => rows
  | i, x :: rest, rows =>
    applyOrderLoop touch setOrd (i + 1) rest
      (rows.map (fun r => if touch r x then setOrd r i else r))

/-- The loop `for index, card_id in enumerate(request.card_ids): UPDATE cards
SET ordering = index WHERE id = card_id AND group_id = group_id` of
`update_card_order`.  Each update is scoped by the group id. -/
def applyCardOrder (group_id : String) : Nat → List String → List CardRow → List CardRow :=
  applyOrderLoop (fun c cid => c.id == cid && c.group_id == group_id)
    (fun c i => { c with ordering := some (Int.ofNat i) })

/-- Endpoint `PUT /projects/{project_id}/groups/{group_id}/cards/order`
(`update_card_order` in `generators.py`): NOT guarded; 404 unless the group
belongs to the project; each listed id gets `ordering = position`, scoped by
the group id. -/
def update_card_order (db : DB) (project_id group_id : String)
    (card_ids : List String) : Except HErr DB :=
  match db.groups.find? (fun g => g.id == group_id && g.project_id == project_id) with
  | none => Except.error ⟨404⟩
  | some _ => Except.ok { db with cards := applyCardOrder group_id 0 card_ids db.cards }

/-! ## Worldview card reorder (`projects.py`, `update_worldview_card_order`) -/

/-- The loop of `update_worldview_card_order`: `UPDATE worldview_cards SET
ordering = index WHERE id = card_id` — filtered by the primary key ONLY, not
by the group id (source line 789 of `projects.py`). -/
def applyWvCardOrderById : Nat → List String → List WorldviewCardRow → List WorldviewCardRow :=
  applyOrderLoop (fun c cid => c.id == cid) (fun c i => { c with ordering := Int.ofNat i })

/-- Endpoint `PUT /projects/{project_id}/worldview_groups/{group_id}/cards/order`:
guarded; 404 unless the worldview group belongs to the project; then every
row whose id appears in the list is updated regardless of its group. -/
def update_worldview_card_order (verify : String → String → Bool) (db : DB)
    (project_id : String) (pw : Option String) (group_id : String)
    (card_ids : List String) : Except HErr DB :=
  withProject verify db project_id pw fun proj =>
    match db.worldview_groups.find? (fun g => g.id == group_id && g.project_id == proj.id) with
    | none => Except.error ⟨404⟩
    | some _ =>
      Except.ok { db with worldview_cards := applyWvCardOrderById 0 card_ids db.worldview_cards }

/-! ## Manuscript block reorder (`manuscript.py`, `update_manuscript_block_order`) -/

/-- The loop of `update_manuscript_block_order`: each update is scoped by the
project id. -/
def applyBlockOrder (project_id : String) :
    Nat → List String → List ManuscriptBlockRow → List ManuscriptBlockRow :=
  applyOrderLoop (fun b bid => b.id == bid && b.project_id == project_id)
    (fun b i => { b with ordering := Int.ofNat i })

/-- Endpoint `PUT /projects/{project_id}/manuscript/blocks/order`: guarded; each
listed id gets `ordering = position`, scoped by the project id. -/
def update_manuscript_block_order (verify : String → String → Bool) (db : DB)
    (project_id : String) (pw : Option String) (block_ids : List String) : Except HErr DB :=
  withProject verify db project_id pw fun proj =>
    Except.ok { db with
      manuscript_blocks := applyBlockOrder proj.id 0 block_ids db.manuscript_blocks }

/-! ## Sibling re-indexing after delete

`delete_worldview_card` (`projects.py`) and `delete_plot_point`
(`scenarios.py`) share the same shape: delete the row, flush, load the
remaining siblings ordered by `ordering`, and assign `0, 1, 2, ...` in that
order inside the same transaction.  `RowOps` abstracts the row type. -/

structure RowOps (α : Type) where
  rid : α → String
  ord : α → Int
  setOrd : α → Int → α
  rid_setOrd : ∀ r n, rid (setOrd r n) = rid r
  ord_setOrd : ∀ r n, ord (setOrd r n) = n

/-- The remaining siblings `query(...).filter(scope).order_by(ordering)`.
SQL leaves the order of equal keys unspecified; insertion sort is one
consistent choice. -/
def sortScope {α : Type} (ops : RowOps α) (inScope : α → Bool) (table : List α) : List α :=
  List.insertionSort (fun a b => ops.ord a ≤ ops.ord b) (table.filter inScope)

/-- The ordering assignment `enumerate(remaining)` keyed by row id. -/
def reindexAssign {α : Type} (ops : RowOps α) (remaining : List α) : List (String × Int) :=
  (List.enumFrom 0 remaining).map (fun p => (ops.rid p.2, Int.ofNat p.1))

/-- Apply the assignment to one row of the session. -/
def reindexApply {α : Type} (ops : RowOps α) (assign : List (String × Int)) (r : α) : α :=
  match assign.find? (fun q => q.1 == ops.rid r) with
  | some q => ops.setOrd r q.2
  | none => r

/-- Re-index the sibling scope `inScope` of `table`: the in-scope rows sorted
by their current ordering receive `0..N-1`; all other rows are untouched.
This is the functional reading of the Python loop
`for index, row in enumerate(remaining): row.ordering = index`. -/
def reindexScope {α : Type} (ops : RowOps α) (inScope : α → Bool) (table : List α) : List α :=
  table.map (reindexApply ops (reindexAssign ops (sortScope ops inScope table)))

def wvOps : RowOps WorldviewCardRow :=
  { rid := fun c => c.id
    ord := fun c => c.ordering
    setOrd := fun c n => { c with ordering := n }
    rid_setOrd := fun _ _ => rfl
    ord_setOrd := fun _ _ => rfl }

def plotOps : RowOps PlotPointRow :=
  { rid := fun p => p.id
    ord := fun p => p.ordering
    setOrd := fun p n => { p with ordering := n }
    rid_setOrd := fun _ _ => rfl
    ord_setOrd := fun _ _ => rfl }

/-- Join membership of a worldview card in a project (via its group). -/
def wvCardJoinsProject (db : DB) (c : WorldviewCardRow) (project_id : String) : Bool :=
  ((db.worldview_groups.find? (fun g => g.id == c.group_id)).map
    (fun g => g.project_id == project_id)).getD false

/-- Endpoint `DELETE /projects/{project_id}/worldview_cards/{card_id}`
(`delete_worldview_card`): guarded; deletes the card, then re-indexes the
remaining cards of the same group to `0..N-1` within the same transaction. -/
def delete_worldview_card (verify : String → String → Bool) (db : DB)
    (project_id : String) (pw : Option String) (card_id : String) : Except HErr DB :=
  withProject verify db project_id pw fun proj =>
    match db.worldview_cards.find?
        (fun c => c.id == card_id && wvCardJoinsProject db c proj.id) with
    | none => Except.error ⟨404⟩
    | some card =>
      let afterDelete := db.worldview_cards.filter (fun c => !(c.id == card.id))
      Except.ok { db with
        worldview_cards :=
          reindexScope wvOps (fun c => c.group_id == card.group_id) afterDelete }

/-- Join membership of a plot point in a project (via its scenario). -/
def plotJoinsProject (db : DB) (p : PlotPointRow) (project_id : String) : Bool :=
  ((db.scenarios.find? (fun s => s.id == p.scenario_id)).map
    (fun s => s.project_id == project_id)).getD false

/-- Endpoint `DELETE /projects/{project_id}/scenarios/plot_points/{plot_point_id}`
(`delete_plot_point`): guarded; deletes the plot point, then re-indexes the
remaining plot points of the same scenario to `0..N-1` within the same
transaction. -/
def delete_plot_point (verify : String → String → Bool) (db : DB)
    (project_id : String) (pw : Option String) (plot_point_id : String) : Except HErr DB :=
  withProject verify db project_id pw fun proj =>
    match db.plot_points.find?
        (fun p => p.id == plot_point_id && plotJoinsProject db p proj.id) with
    | none => Except.error ⟨404⟩
    | some pp =>
      let afterDelete := db.plot_points.filter (fun p => !(p.id == pp.id))
      Except.ok { db with
        plot_points := reindexScope plotOps (fun p => p.scenario_id == pp.scenario_id) afterDelete }

/-! ## Card update (`projects.py`, `update_card`)

The pydantic request uses `exclude_unset=True`: a field that is absent from
the payload is skipped, a field present with `null` is written as NULL (the
handler's `elif key != 'id'` branch), and a present list is assigned
directly into the JSON column.  `Option (Option _)` encodes absent /
null / value for the four list fields; for the plain string fields only the
absent / value cases are reachable through the claims and are embedded. -/

structure UpdateCardRequestE where
  id : String
  name : Option String
  description : Option String
  goal : Option (Option (List String))
  personality : Option (Option (List String))
  abilities : Option (Option (List String))
  quote : Option (Option (List String))
  introduction_story : Option String

def applyFieldUpdate (cur : FieldVal) : Option (Option (List String)) → FieldVal
  | none => cur
  | some none => FieldVal.vnull
  | some (some xs) => FieldVal.vlist xs

def applyCardUpdate (req : UpdateCardRequestE) (c : CardRow) : CardRow :=
  { c with
    name := req.name.getD c.name,
    description := match req.description with | none => c.description | some v => some v,
    goal := applyFieldUpdate c.goal req.goal,
    personality := applyFieldUpdate c.personality req.personality,
    abilities := applyFieldUpdate c.abilities req.abilities,
    quote := applyFieldUpdate c.quote req.quote,
    introduction_story :=
      match req.introduction_story with | none => c.introduction_story | some v => some v }

/-- Endpoint `PUT /projects/{project_id}/cards/{card_id}` (`update_card`): guarded;
404 unless the card joins to a group of this project; then the provided
fields are written (lists are assigned directly into the JSON column). -/
def update_card (verify : String → String → Bool) (db : DB) (project_id : String)
    (pw : Option String) (card_id : String) (req : UpdateCardRequestE) : Except HErr DB :=
  withProject verify db project_id pw fun proj =>
    match db.cards.find? (fun c => c.id == card_id && cardJoinsProject db c proj.id) with
    | none => Except.error ⟨404⟩
    | some _ =>
      Except.ok { db with cards :=
        (db.cards.map (fun c =>
          if c.id == card_id && cardJoinsProject db c proj.id then applyCardUpdate req c
          else c)) }

/-! ## Project assembly (`projects.py`, `convert_project_orm_to_pydantic`)

Only the parts of the assembly function that the claims mention are
embedded: the card list-field normalization (lines 276-283) and the
worldview content decoding (lines 311-319). -/

/-- Lines 278-282: a value that is not a Python list and not `None` is
replaced by `[]`; a list passes through; `None` stays `None` (the pydantic
field is `Optional[List[str]]`).  There is no comma-split fallback here. -/
def assembleField : FieldVal → Option (List String)
  | FieldVal.vlist xs => some xs
  | FieldVal.vnull => none
  | FieldVal.vstr _ => some []

/-- The pydantic `Worldview` response model: `logline`/`genre` default `""`,
`rules` defaults `[]`; all three are `Optional`. -/
structure WorldviewResp where
  logline : Option String
  genre : Option String
  rules : Option (List String)
deriving DecidableEq

/-- Last-binding lookup in a JSON object's field list (Python dicts produced
by `json.loads` keep the last duplicate key). -/
def objLookupLast (fields : List (String × JVal)) (k : String) : Option JVal :=
  (fields.reverse.find? (fun p => p.1 == k)).map (fun p => p.2)

/-- Require every item of a JSON array to be a string (pydantic `List[str]`
validation). -/
def jStrList : List JVal → Option (List String)
  | [] => some []
  | JVal.jstr s :: rest => (jStrList rest).map (fun xs => s :: xs)
  | _ => none

/-- Pydantic validation of an `Optional[str]` field with default `""`. -/
def validateStrField (fields : List (String × JVal)) (k : String) : Option (Option String) :=
  match objLookupLast fields k with
  | none => some (some "")
  | some JVal.jnull => some none
  | some (JVal.jstr s) => some (some s)
  | some _ => none

/-- Pydantic validation of the `rules` field (`Optional[List[str]]`,
default `[]`). -/
def validateRulesField (fields : List (String × JVal)) : Option (Option (List String)) :=
  match objLookupLast fields "rules" with
  | none => some (some [])
  | some JVal.jnull => some none
  | some (JVal.jarr items) => (jStrList items).map (fun xs => some xs)
  | some _ => none

/-- Validation `Worldview.model_validate` on a JSON object. -/
def validateWorldview (fields : List (String × JVal)) : Option WorldviewResp :=
  match validateStrField fields "logline" with
  | none => none
  | some lg =>
    match validateStrField fields "genre" with
    | none => none
    | some gn =>
      match validateRulesField fields with
      | none => none
      | some rl => some ⟨lg, gn, rl⟩

/-- Lines 311-319 of `projects.py` followed by `Project.model_validate`:
start from the default `{"logline": "", "genre": "", "rules": []}`; when the
stored content is truthy, try `json.loads` — on failure the raw string
becomes `logline`; on success the parsed value replaces the dict and is then
validated as `Optional[Worldview]`.  The outer `none` is a pydantic
`ValidationError`; the inner value is the assembled worldview field. -/
def decodeWorldviewContent (content : Option String) : Option (Option WorldviewResp) :=
  match content with
  | none => some (some ⟨some "", some "", some []⟩)
  | some s =>
    if s = "" then some (some ⟨some "", some "", some []⟩)
    else
      match json_loads s with
      | none => some (some ⟨some s, some "", some []⟩)
      | some (JVal.jobj fields) => (validateWorldview fields).map (fun w => some w)
      | some JVal.jnull => some none
      | some _ => none

/-- A card as returned by project assembly: the stored row with the four
JSON list fields normalized by lines 278-282. -/
structure CardResp where
  id : String
  group_id : String
  name : String
  description : Option String
  goal : Option (List String)
  personality : Option (List String)
  abilities : Option (List String)
  quote : Option (List String)
  introduction_story : Option String
  ordering : Option Int
deriving DecidableEq

/-- One card of the assembled response (lines 276-283). -/
def assembleCard (c : CardRow) : CardResp :=
  ⟨c.id, c.group_id, c.name, c.description, assembleField c.goal, assembleField c.personality,
   assembleField c.abilities, assembleField c.quote, c.introduction_story, c.ordering⟩

/-- Sort key of line 275: cards sort by the tuple
`(c.ordering is None, c.ordering)`, i.e. ascending ordering with `None`
orderings last. -/
def cardOrdLe (a b : CardRow) : Bool :=
  match a.ordering, b.ordering with
  | none, none => true
  | some _, none => true
  | none, some _ => false
  | some x, some y => x ≤ y

/-- One group entry of the assembled project (lines 267-285). -/
structure GroupResp where
  id : String
  project_id : String
  name : String
  cards : List CardResp
deriving DecidableEq

/-- Lines 267-285: the group's cards (the rows whose `group_id` is the
group's id), sorted by the `None`-last ordering key, each field-normalized. -/
def assembleGroup (db : DB) (g : GroupRow) : GroupResp :=
  ⟨g.id, g.project_id, g.name,
    (List.insertionSort (fun a b => cardOrdLe a b = true)
      (db.cards.filter (fun c => c.group_id == g.id))).map assembleCard⟩

/-- The project identity and groups sections of the assembled response.
The response model carries no password material; the other sections
(worldview, scenarios, manuscript blocks, relationships) are embedded
separately where claims need them. -/
structure ProjectResp where
  id : String
  name : String
  groups : List GroupResp
deriving DecidableEq

/-- Lines 258-285 projected to the identity and groups sections. -/
def assembleProject (db : DB) (p : ProjectRow) : ProjectResp :=
  ⟨p.id, p.name, (db.groups.filter (fun g => g.project_id == p.id)).map (assembleGroup db)⟩

/-- Endpoint `GET /api/v1/projects` (`get_projects`, lines 365-378 of
`projects.py`): the handler declares no password parameter of any kind;
every project row of the database — password hash set or not — is loaded
with all its descendants, assembled, and returned sorted by project
name (`order_by(ProjectModel.name)`). -/
def get_projects (db : DB) : List ProjectResp :=
  (List.insertionSort (fun a b => a.name ≤ b.name) db.projects).map (assembleProject db)

/-! ## Style guide loading (`scenarios.py` and `manuscript.py`,
`get_style_guide_content`)

The filesystem is modelled as an association list from paths to file
contents; `mapLookup fs path = none` models `not os.path.exists(path)`. -/

def FS := List (String × String)

def style_guide_path (style_guide_id : String) : String :=
  "app/style_guides/" ++ style_guide_id ++ ".txt"

/-- The sanitization check shared by both implementations:
`".." in id or "/" in id or "\\" in id`. -/
def styleGuideForbidden (style_guide_id : String) : Bool :=
  pyIn ".." style_guide_id || pyIn "/" style_guide_id || pyIn "\\" style_guide_id

/-- Function `get_style_guide_content(style_guide_id, task_type)` from `scenarios.py`.
`macroExtract` models the regex section extraction of the `'macro'` branch
(an external text-processing step the claims do not depend on). -/
def scenarios_get_style_guide_content (macroExtract : String → List String) (fs : FS)
    (style_guide_id : String) (task_type : String) : String :=
  if style_guide_id = "" then ""
  else if styleGuideForbidden style_guide_id then ""
  else
    match mapLookup fs (style_guide_path style_guide_id) with
    | none => ""
    | some full_content =>
      if task_type = "macro" then
        let extracted_parts := macroExtract full_content
        if extracted_parts.isEmpty then ""
        else
          "\n\n### 참고할 문체 가이드 (거시적 전개 방식)\n" ++
            String.intercalate "\n\n---\n\n" extracted_parts ++ "\n"
      else if task_type = "micro" then
        "\n\n### 반드시 준수해야 할 문체 가이드라인\n" ++ full_content ++ "\n"
      else ""

def metaKeywords : List String :=
  ["TITLE:", "DESCRIPTION:", "CATEGORY:", "LANGUAGE:", "CREATED:", "UPDATED:"]

/-- A metadata line of a style guide file (stripped line starting with `"# "`
and containing one of the keywords, uppercased). -/
def isMetaLine (line : String) : Bool :=
  line.trim.startsWith "# " && metaKeywords.any (fun kw => pyIn kw line.toUpper)

/-- Function `get_style_guide_content(style_guide_id)` from `manuscript.py`: same
sanitization, then the metadata lines are filtered out of the content. -/
def manuscript_get_style_guide_content (fs : FS) (style_guide_id : String) : String :=
  if style_guide_id = "" then ""
  else if styleGuideForbidden style_guide_id then ""
  else
    match mapLookup fs (style_guide_path style_guide_id) with
    | none => ""
    | some full_content =>
      let lines := full_content.splitOn "\n"
      let content_lines := lines.filter (fun line => !(isMetaLine line))
      let clean_content := (String.intercalate "\n" content_lines).trim
      "\n\n### 반드시 준수해야 할 문체 가이드라인\n" ++ clean_content ++ "\n"

/-- The file paths either implementation passes to `open(...)`: the single
direct path, and only after the emptiness, sanitization and existence checks
all pass. -/
def styleGuideFilesOpened (fs : FS) (style_guide_id : String) : List String :=
  if style_guide_id = "" then []
  else if styleGuideForbidden style_guide_id then []
  else
    match mapLookup fs (style_guide_path style_guide_id) with
    | none => []
    | some _ => [style_guide_path style_guide_id]

/-! ## Sample cloning (`projects.py`, `create_sample_project`) -/

structure SampleCard where
  id : Option String
  name : String
  description : String
  goal : Option (List String)
  personality : Option (List String)
  abilities : Option (List String)
  quote : Option (List String)
  introduction_story : Option String

structure SampleGroup where
  name : String
  cards : Option (List SampleCard)

structure SampleRelationship where
  source_character_id : String
  target_character_id : String
  type : String
  description : Option String
  phase_order : Option Int

structure SampleWorldviewCard where
  title : String
  content : String

structure SampleWorldviewGroup where
  name : String
  worldview_cards : Option (List SampleWorldviewCard)

structure SamplePlotPoint where
  title : String
  content : String
  ordering : Int

structure SampleScenario where
  title : Option String
  summary : Option String
  synopsis : Option String
  plot_points : Option (List SamplePlotPoint)

structure SamplePayload where
  groups : Option (List SampleGroup)
  relationships : Option (List SampleRelationship)
  worldview_groups : Option (List SampleWorldviewGroup)
  worldview : Option JVal
  scenarios : Option (List SampleScenario)

structure CreateSampleProjectRequest where
  sample_id : String
  custom_name : Option String
  sample_data : Option SamplePayload

/-- Expression `card_data.get("id", card_data["name"])`: the key of a payload card in
the id mapping. -/
def sampleCardKey (c : SampleCard) : String := c.id.getD c.name

/-- Accumulator of the group/card creation loop of `create_sample_project`:
`groups_to_create`, `cards_to_create` and `card_id_map`.  New map bindings
are consed at the head, so `mapLookup` sees the newest binding first,
matching Python dict overwrite semantics. -/
structure CloneState where
  groups : List GroupRow
  cards : List CardRow
  card_id_map : List (String × String)

/-- One iteration of the inner card loop: allocate
`card-{ts}-{len(cards_to_create)}`, record the id mapping, store the list
fields as `json.dumps` text, and set `ordering = card_idx`. -/
def addSampleCard (ts : Nat) (gid : String) (st : CloneState) (p : Nat × SampleCard) :
    CloneState :=
  let cd := p.2
  let new_card_id := "card-" ++ toString ts ++ "-" ++ toString st.cards.length
  { st with
    cards := st.cards ++
      [{ id := new_card_id,
         group_id := gid,
         name := cd.name,
         description := some cd.description,
         goal := FieldVal.vstr (jsonDumpsList (cd.goal.getD [])),
         personality := FieldVal.vstr (jsonDumpsList (cd.personality.getD [])),
         abilities := FieldVal.vstr (jsonDumpsList (cd.abilities.getD [])),
         quote := FieldVal.vstr (jsonDumpsList (cd.quote.getD [])),
         introduction_story := some (cd.introduction_story.getD ""),
         ordering := some (Int.ofNat p.1) }],
    card_id_map := (sampleCardKey cd, new_card_id) :: st.card_id_map }

/-- One iteration of the outer group loop: allocate
`group-{ts}-{len(groups_to_create)}` and process the group's cards with
`enumerate`. -/
def addSampleGroup (ts : Nat) (pid : String) (st : CloneState) (sg : SampleGroup) :
    CloneState :=
  let gid := "group-" ++ toString ts ++ "-" ++ toString st.groups.length
  let st1 := { st with groups := st.groups ++ [⟨gid, pid, sg.name⟩] }
  ((sg.cards.getD []).enum).foldl (addSampleCard ts gid) st1

/-- The whole group/card creation pass. -/
def cloneGroupsCards (ts : Nat) (pid : String) (sgs : List SampleGroup) : CloneState :=
  sgs.foldl (addSampleGroup ts pid) ⟨[], [], []⟩

/-- One iteration of the relationship pass: resolve both endpoints through
`card_id_map`; a relationship with any unresolved endpoint is skipped. -/
def cloneRelStep (ts : Nat) (pid : String) (m : List (String × String))
    (acc : List RelationshipRow) (sr : SampleRelationship) : List RelationshipRow :=
  match mapLookup m sr.source_character_id, mapLookup m sr.target_character_id with
  | some s, some t =>
    acc ++ [{ id := "rel-" ++ toString ts ++ "-" ++ toString acc.length,
              project_id := pid,
              source_character_id := s,
              target_character_id := t,
              type := sr.type,
              description := some (sr.description.getD ""),
              phase_order := sr.phase_order.getD 1 }]
  | _, _ => acc

/-- The whole relationship pass of `create_sample_project`. -/
def cloneRelationships (ts : Nat) (pid : String) (m : List (String × String))
    (srs : List SampleRelationship) : List RelationshipRow :=
  srs.foldl (cloneRelStep ts pid m) []

/-- Accumulator for the worldview group/card pass. -/
structure WvCloneState where
  wgroups : List WorldviewGroupRow
  wcards : List WorldviewCardRow

def addSampleWvGroup (ts : Nat) (pid : String) (st : WvCloneState)
    (sg : SampleWorldviewGroup) : WvCloneState :=
  let gid := "wv-group-" ++ toString ts ++ "-" ++ toString st.wgroups.length
  let st1 := { st with wgroups := st.wgroups ++ [⟨gid, pid, sg.name⟩] }
  ((sg.worldview_cards.getD []).enum).foldl
    (fun st2 p =>
      { st2 with wcards := st2.wcards ++
          [⟨"wv-card-" ++ toString ts ++ "-" ++ toString st2.wcards.length, gid,
            p.2.title, p.2.content, Int.ofNat p.1⟩] }) st1

def cloneWorldviewGroups (ts : Nat) (pid : String) (sgs : List SampleWorldviewGroup) :
    WvCloneState :=
  sgs.foldl (addSampleWvGroup ts pid) ⟨[], []⟩

/-- The default worldview object used when the payload has none. -/
def defaultWorldviewJ : JVal :=
  JVal.jobj [("logline", JVal.jstr ""), ("genre", JVal.jstr ""), ("rules", JVal.jarr [])]

/-- The scenario pass: clone the first payload scenario and its plot points,
or create the default `"메인 스토리"` scenario. -/
def cloneScenario (ts : Nat) (pid : String) (scenarios_data : List SampleScenario) :
    ScenarioRow × List PlotPointRow :=
  match scenarios_data with
  | sc :: _ =>
    (⟨"scen-" ++ toString ts, pid, sc.title.getD "메인 스토리",
        some (sc.summary.getD ""), none, some (sc.synopsis.getD "")⟩,
      (sc.plot_points.getD []).map (fun pl =>
        ⟨"plot-" ++ toString ts ++ "-" ++ toString pl.ordering, "scen-" ++ toString ts,
          pl.title, some pl.content, pl.ordering, none⟩))
  | [] =>
    (⟨"scen-" ++ toString ts, pid, "메인 스토리",
        some "샘플 프로젝트의 메인 스토리", none, some ""⟩, [])

/-- Endpoint `POST /api/v1/projects/create-from-sample` (`create_sample_project`,
not guarded — it creates a new project): 400 when no sample data is sent;
otherwise all rows are built and inserted in one transaction. -/
def create_sample_project (ts : Nat) (req : CreateSampleProjectRequest) (db : DB) :
    Except HErr DB :=
  let new_project_id := "project-sample-" ++ toString ts
  let project_name := pyStrOr req.custom_name "샘플 프로젝트"
  match req.sample_data with
  | none => Except.error ⟨400⟩
  | some sd =>
    let st := cloneGroupsCards ts new_project_id (sd.groups.getD [])
    let rels := cloneRelationships ts new_project_id st.card_id_map (sd.relationships.getD [])
    let wv := cloneWorldviewGroups ts new_project_id (sd.worldview_groups.getD [])
    let worldview_content := jDump (sd.worldview.getD defaultWorldviewJ)
    let scpl := cloneScenario ts new_project_id (sd.scenarios.getD [])
    Except.ok { db with
      projects := db.projects ++ [⟨new_project_id, project_name, none⟩],
      worldviews := db.worldviews ++ [⟨new_project_id, some worldview_content⟩],
      scenarios := db.scenarios ++ [scpl.1],
      groups := db.groups ++ st.groups,
      cards := db.cards ++ st.cards,
      relationships := db.relationships ++ rels,
      worldview_groups := db.worldview_groups ++ wv.wgroups,
      worldview_cards := db.worldview_cards ++ wv.wcards,
      plot_points := db.plot_points ++ scpl.2 }

/-! ## Password-independence helper -/

/-- Overwrite the stored password hash of one project, leaving every other
table untouched.  Used to state that the `generators.py` card endpoints
never consult the password. -/
def setProjectHash (db : DB) (pid : String) (h : Option String) : DB :=
  { db with projects :=
      (db.projects.map (fun p => if p.id == pid then { p with hashed_password := h } else p)) }

/-! ## Concrete databases and requests used by counterexamples and witnesses -/

/-- A verify function that accepts everything (bcrypt verify CAN accept the
empty password when the stored hash is the hash of `""`, which the
`PUT /password` endpoint allows setting). -/
def verifyAlways : String → String → Bool := fun _ _ => true

/-- A verify function that rejects everything. -/
def verifyNever : String → String → Bool := fun _ _ => false

/-- An empty database. -/
def dbEmpty : DB := ⟨[], [], [], [], [], [], [], [], [], []⟩

/-- One unprotected project `"P"` with one character group `"G"` holding two
cards `a` (ordering 0) and `b` (ordering 1). -/
def dbTwoCards : DB :=
  { dbEmpty with
    projects := [⟨"P", "프로젝트", none⟩],
    groups := [⟨"G", "P", "주인공들"⟩],
    cards := [
      ⟨"a", "G", "가온", none, FieldVal.vnull, FieldVal.vnull, FieldVal.vnull, FieldVal.vnull,
        none, some 0⟩,
      ⟨"b", "G", "나래", none, FieldVal.vnull, FieldVal.vnull, FieldVal.vnull, FieldVal.vnull,
        none, some 1⟩] }

/-- A password-protected project with one empty group: the `generators.py`
card endpoints accept requests on it without any password. -/
def dbProtected : DB :=
  { dbEmpty with
    projects := [⟨"P", "비밀 프로젝트", some "bcrypt-hash-of-password"⟩],
    groups := [⟨"G", "P", "미분류"⟩] }

/-- A character card payload used by the counterexamples. -/
def ccSample : CharacterCard :=
  ⟨"아무개", "테스트 캐릭터", ["용을 물리친다"], ["용감함"], ["검술"], ["돌격!"], "옛날 옛적에"⟩

/-- One unprotected project with two worldview groups `g1`, `g2`, one card in
each, both with ordering 0. -/
def dbTwoWvGroups : DB :=
  { dbEmpty with
    projects := [⟨"P", "프로젝트", none⟩],
    worldview_groups := [⟨"g1", "P", "지리"⟩, ⟨"g2", "P", "역사"⟩],
    worldview_cards := [⟨"w1", "g1", "대륙", "넓다", 0⟩, ⟨"w2", "g2", "건국", "오래됐다", 0⟩] }

/-- One unprotected project with a group of three cards `c1(0)`, `c2(1)`,
`c3(2)` — the concrete reorder scenario of the spec. -/
def dbThreeCards : DB :=
  { dbEmpty with
    projects := [⟨"P", "프로젝트", none⟩],
    groups := [⟨"G", "P", "주인공들"⟩],
    cards := [
      ⟨"c1", "G", "하나", none, FieldVal.vnull, FieldVal.vnull, FieldVal.vnull, FieldVal.vnull,
        none, some 0⟩,
      ⟨"c2", "G", "둘", none, FieldVal.vnull, FieldVal.vnull, FieldVal.vnull, FieldVal.vnull,
        none, some 1⟩,
      ⟨"c3", "G", "셋", none, FieldVal.vnull, FieldVal.vnull, FieldVal.vnull, FieldVal.vnull,
        none, some 2⟩] }

/-- One unprotected project with one worldview group holding two worldview
cards `w1(0)`, `w2(1)`. -/
def dbTwoWvCards : DB :=
  { dbEmpty with
    projects := [⟨"P", "프로젝트", none⟩],
    worldview_groups := [⟨"g1", "P", "지리"⟩],
    worldview_cards := [⟨"w1", "g1", "대륙", "넓다", 0⟩, ⟨"w2", "g1", "바다", "깊다", 1⟩] }

/-- One unprotected project with one scenario holding two plot points. -/
def dbTwoPlots : DB :=
  { dbEmpty with
    projects := [⟨"P", "프로젝트", none⟩],
    scenarios := [⟨"S", "P", "메인 시나리오", none, none, some ""⟩],
    plot_points := [⟨"p1", "S", "발단", some "시작", 0, none⟩,
      ⟨"p2", "S", "전개", some "중간", 1, none⟩] }

/-- A sample payload with one group of two cards and two relationships, one
of which has a dangling `target_character_id`. -/
def samplePayloadC5 : SamplePayload :=
  { groups := some [⟨"영웅들", some [
      ⟨some "hero", "주인공", "용사", some ["세계를 구한다"], none, none, none, none⟩,
      ⟨none, "조력자", "마법사", none, none, none, none, none⟩]⟩],
    relationships := some [
      ⟨"hero", "조력자", "우정", some "오랜 친구", some 1⟩,
      ⟨"hero", "빌런", "적대", none, none⟩],
    worldview_groups := none,
    worldview := none,
    scenarios := none }

def reqC5 : CreateSampleProjectRequest := ⟨"sample-1", some "나의 샘플", some samplePayloadC5⟩

/-- An update request writing `["복수"]` into `goal` and leaving the other
fields unset. -/
def reqUpdGoal : UpdateCardRequestE :=
  ⟨"a", none, none, some (some ["복수"]), none, none, none, none⟩

/-- The database after the concrete reorder of C6. -/
def dbThreeCardsReordered : DB :=
  { dbThreeCards with cards := applyCardOrder "G" 0 ["c3", "c1", "c2"] dbThreeCards.cards }

/-- A project with two character groups; the only card `x` lives in group
`H`, outside the reorder target `G`. -/
def dbCardTwoGroups : DB :=
  { dbEmpty with
    projects := [⟨"P", "프로젝트", none⟩],
    groups := [⟨"G", "P", "왼쪽"⟩, ⟨"H", "P", "오른쪽"⟩],
    cards := [⟨"x", "H", "외부", none, FieldVal.vnull, FieldVal.vnull, FieldVal.vnull,
      FieldVal.vnull, none, some 0⟩] }

/-- The database after reordering group `G` of `dbCardTwoGroups` with the
foreign id `x`. -/
def dbCardTwoGroupsAfter : DB :=
  { dbCardTwoGroups with cards := applyCardOrder "G" 0 ["x"] dbCardTwoGroups.cards }

/-- A project with one empty group, for the C3 counterexample. -/
def dbOneGroup : DB :=
  { dbEmpty with projects := [⟨"P", "프로젝트", none⟩], groups := [⟨"G", "P", "그룹"⟩] }

/-- The database after the concrete goal update of the C3 witness. -/
def dbTwoCardsUpdated : DB :=
  { dbTwoCards with cards :=
      (dbTwoCards.cards.map (fun c =>
        if c.id == "a" && cardJoinsProject dbTwoCards c "P" then applyCardUpdate reqUpdGoal c
        else c)) }

/-- The database after adding the sample card to `dbOneGroup`. -/
def dbOneGroupAdded : DB :=
  { dbOneGroup with cards := dbOneGroup.cards ++
      [newCardRow 5 "G" ccSample
        ((dbOneGroup.cards.filter (fun c => c.group_id == "G")).length)] }

/-- The id of a cloned sample project. -/
def sampleProjectId (ts : Nat) : String := "project-sample-" ++ toString ts

/-- The group/card creation state of a sample clone. -/
def sampleCloneState (ts : Nat) (p : SamplePayload) : CloneState :=
  cloneGroupsCards ts (sampleProjectId ts) (p.groups.getD [])

/-- The relationship rows of a sample clone. -/
def sampleCloneRels (ts : Nat) (p : SamplePayload) : List RelationshipRow :=
  cloneRelationships ts (sampleProjectId ts) (sampleCloneState ts p).card_id_map
    (p.relationships.getD [])

/-! ## Basic facts about the guard -/

theorem find?_project_id (projects : List ProjectRow) (pid : String) (p : ProjectRow)
    (h : projects.find? (fun q => q.id == pid) = some p) : p.id = pid := by
  have h2 := List.find?_some h
  simpa using h2

theorem guard_ok_find (verify : String → String → Bool) (projects : List ProjectRow)
    (pid : String) (pw : Option String) (p : ProjectRow)
    (h : get_project_if_accessible verify projects pid pw = GuardResult.ok p) :
    projects.find? (fun q => q.id == pid) = some p := by
  cases hf : projects.find? (fun q => q.id == pid) with
  | none =>
    simp [get_project_if_accessible, hf] at h
  | some q =>
    simp only [get_project_if_accessible, hf] at h
    split_ifs at h <;> simp_all

theorem guard_ok_id (verify : String → String → Bool) (projects : List ProjectRow)
    (pid : String) (pw : Option String) (p : ProjectRow)
    (h : get_project_if_accessible verify projects pid pw = GuardResult.ok p) : p.id = pid :=
  find?_project_id projects pid p (guard_ok_find verify projects pid pw p h)

/-! ## Claim C7 — guard resolution -/

/-- C7, counterexample to the claim as stated: the guard rejects an empty
provided password with 403 even when it verifies against the stored hash
(`if not x_project_password or ...` short-circuits on the falsy empty
string).  `verifyAlways` plays the role of bcrypt verify for a project whose
password was set to the empty string, which `PUT /password` permits. -/
theorem claim_C7_counterexample :
    get_project_if_accessible verifyAlways [⟨"p1", "이름", some "h1"⟩] "p1" (some "") =
      GuardResult.forbidden ∧
    verifyAlways "" "h1" = true := ⟨rfl, rfl⟩

/-- C7 (amended): the guard returns NotFound when no project has the id;
when the project's password hash is truthy it returns Forbidden if the
provided password is absent or EMPTY, Forbidden if it is non-empty and does
not verify, and the project if it is non-empty and verifies; and when the
hash is not truthy every caller passes. -/
theorem claim_C7_amended (verify : String → String → Bool) (projects : List ProjectRow)
    (pid : String) (pw : Option String) :
    (projects.find? (fun p => p.id == pid) = none →
      get_project_if_accessible verify projects pid pw = GuardResult.notFound) ∧
    (∀ proj, projects.find? (fun p => p.id == pid) = some proj →
      (optStrTruthy proj.hashed_password = false →
        get_project_if_accessible verify projects pid pw = GuardResult.ok proj) ∧
      (optStrTruthy proj.hashed_password = true →
        ((optStrTruthy pw = false →
            get_project_if_accessible verify projects pid pw = GuardResult.forbidden) ∧
          (∀ s h, pw = some s → s ≠ "" → proj.hashed_password = some h →
            ((verify s h = false →
                get_project_if_accessible verify projects pid pw = GuardResult.forbidden) ∧
              (verify s h = true →
                get_project_if_accessible verify projects pid pw = GuardResult.ok proj)))))) := by
  constructor
  · intro h
    unfold get_project_if_accessible
    rw [h]
  · intro proj hf
    constructor
    · intro ht
      unfold get_project_if_accessible
      rw [hf]
      simp [ht]
    · intro ht
      constructor
      · intro hpw
        unfold get_project_if_accessible
        rw [hf]
        simp [ht, hpw]
      · intro s h hs hne hh
        have ht2 : optStrTruthy (some h) = true := hh ▸ ht
        have hne2 : h ≠ "" := by simpa [optStrTruthy] using ht2
        constructor
        · intro hv
          simp only [get_project_if_accessible, hf]
          subst hs
          rw [hh]
          simp [ht2, hv, optStrTruthy, hne, hne2]
        · intro hv
          simp only [get_project_if_accessible, hf]
          subst hs
          rw [hh]
          simp [ht2, hv, optStrTruthy, hne, hne2]

/-- Witness for C7 (amended): a concrete protected project accepting its
correct non-empty password. -/
theorem claim_C7_amended_witness :
    get_project_if_accessible verifyAlways [⟨"p1", "이름", some "h1"⟩] "p1" (some "암호") =
      GuardResult.ok ⟨"p1", "이름", some "h1"⟩ :=
  ((((claim_C7_amended verifyAlways [⟨"p1", "이름", some "h1"⟩] "p1" (some "암호")).2
      ⟨"p1", "이름", some "h1"⟩ rfl).2 (by decide)).2 "암호" "h1" rfl (by decide) rfl).2 rfl

/-! ## Claim C9 — worldview decoding -/

/-- C9: on project assembly the stored worldview content decodes as: null or
missing content gives empty logline, empty genre and empty rules; a content
string that is not valid JSON (a legacy plain-string value) becomes the
logline, with genre empty and rules the empty list. -/
theorem claim_C9_worldview_decode :
    decodeWorldviewContent none = some (some ⟨some "", some "", some []⟩) ∧
    decodeWorldviewContent (some "") = some (some ⟨some "", some "", some []⟩) ∧
    (∀ s : String, s ≠ "" → json_loads s = none →
      decodeWorldviewContent (some s) = some (some ⟨some s, some "", some []⟩)) := by
  refine ⟨rfl, rfl, ?_⟩
  intro s hs hp
  simp only [decodeWorldviewContent]
  rw [if_neg hs, hp]

/-- Witness for C9: the legacy plain string `"전설의 검"` is not valid JSON
and becomes the logline. -/
theorem claim_C9_worldview_decode_witness :
    decodeWorldviewContent (some "전설의 검") =
      some (some ⟨some "전설의 검", some "", some []⟩) :=
  claim_C9_worldview_decode.2.2 "전설의 검" (by decide) rfl

/-! ## Claim C10 — style guide id sanitization -/

/-- C10: for both implementations of `get_style_guide_content`, an id
containing `".."`, `"/"` or `"\\"` yields the empty string with no file
opened; an id whose file does not exist yields the empty string with no file
opened; and every path that is ever opened is exactly
`app/style_guides/<id>.txt` for an id free of path separators. -/
theorem claim_C10_style_guide (macroExtract : String → List String) (fs : FS)
    (style_guide_id task_type : String) :
    (styleGuideForbidden style_guide_id = true →
      scenarios_get_style_guide_content macroExtract fs style_guide_id task_type = "" ∧
      manuscript_get_style_guide_content fs style_guide_id = "" ∧
      styleGuideFilesOpened fs style_guide_id = []) ∧
    (mapLookup fs (style_guide_path style_guide_id) = none →
      scenarios_get_style_guide_content macroExtract fs style_guide_id task_type = "" ∧
      manuscript_get_style_guide_content fs style_guide_id = "" ∧
      styleGuideFilesOpened fs style_guide_id = []) ∧
    (∀ p ∈ styleGuideFilesOpened fs style_guide_id,
      p = style_guide_path style_guide_id ∧
      pyIn ".." style_guide_id = false ∧ pyIn "/" style_guide_id = false ∧
      pyIn "\\" style_guide_id = false) := by
  by_cases hid : style_guide_id = ""
  · subst hid
    refine ⟨?_, ?_, ?_⟩
    · intro hforb
      exact absurd hforb (by decide)
    · intro _
      exact ⟨rfl, rfl, rfl⟩
    · intro p hp
      simp [styleGuideFilesOpened] at hp
  · by_cases hforb : styleGuideForbidden style_guide_id = true
    · refine ⟨?_, ?_, ?_⟩
      · intro _
        unfold scenarios_get_style_guide_content manuscript_get_style_guide_content
          styleGuideFilesOpened
        rw [if_neg hid, if_neg hid, if_neg hid, if_pos hforb, if_pos hforb, if_pos hforb]
        exact ⟨rfl, rfl, rfl⟩
      · intro _
        unfold scenarios_get_style_guide_content manuscript_get_style_guide_content
          styleGuideFilesOpened
        rw [if_neg hid, if_neg hid, if_neg hid, if_pos hforb, if_pos hforb, if_pos hforb]
        exact ⟨rfl, rfl, rfl⟩
      · intro p hp
        unfold styleGuideFilesOpened at hp
        rw [if_neg hid, if_pos hforb] at hp
        exact absurd hp (by simp)
    · have hforb2 : styleGuideForbidden style_guide_id = false := by
        cases h2 : styleGuideForbidden style_guide_id
        · rfl
        · exact absurd h2 hforb
      have hparts := hforb2
      unfold styleGuideForbidden at hparts
      simp only [Bool.or_eq_false_iff] at hparts
      refine ⟨?_, ?_, ?_⟩
      · intro h2
        exact absurd h2 hforb
      · intro hmiss
        unfold scenarios_get_style_guide_content manuscript_get_style_guide_content
          styleGuideFilesOpened
        rw [if_neg hid, if_neg hid, if_neg hid, if_neg hforb, if_neg hforb, if_neg hforb,
          hmiss]
        exact ⟨rfl, rfl, rfl⟩
      · intro p hp
        unfold styleGuideFilesOpened at hp
        rw [if_neg hid, if_neg hforb] at hp
        cases hlook : mapLookup fs (style_guide_path style_guide_id) with
        | none => rw [hlook] at hp; exact absurd hp (by simp)
        | some content =>
          rw [hlook] at hp
          simp only [List.mem_singleton] at hp
          exact ⟨hp, hparts.1.1, hparts.1.2, hparts.2⟩

/-- Witness for C10: a traversal attempt `"../secret"` is rejected with the
empty string and no file access. -/
theorem claim_C10_style_guide_witness :
    scenarios_get_style_guide_content (fun _ => []) [] "../secret" "micro" = "" ∧
    manuscript_get_style_guide_content [] "../secret" = "" ∧
    styleGuideFilesOpened [] "../secret" = [] :=
  (claim_C10_style_guide (fun _ => []) [] "../secret" "micro").1 (by decide)

/-! ## Inversion of the guard wrapper -/

theorem withProject_eq_ok (verify : String → String → Bool) (db : DB) (pid : String)
    (pw : Option String) (k : ProjectRow → Except HErr DB) (db' : DB)
    (h : withProject verify db pid pw k = Except.ok db') :
    ∃ proj, get_project_if_accessible verify db.projects pid pw = GuardResult.ok proj ∧
      k proj = Except.ok db' := by
  unfold withProject at h
  cases hg : get_project_if_accessible verify db.projects pid pw with
  | notFound => rw [hg] at h; exact Except.noConfusion h
  | forbidden => rw [hg] at h; exact Except.noConfusion h
  | ok proj => rw [hg] at h; exact ⟨proj, rfl, h⟩

theorem withProject_forbidden (verify : String → String → Bool) (db : DB) (pid : String)
    (pw : Option String) (k : ProjectRow → Except HErr DB)
    (h : get_project_if_accessible verify db.projects pid pw = GuardResult.forbidden) :
    withProject verify db pid pw k = Except.error ⟨403⟩ := by
  unfold withProject
  rw [h]

/-! ## Lemmas about the reorder loop -/

theorem applyOrderLoop_length {α : Type} (touch : α → String → Bool) (setOrd : α → Nat → α) :
    ∀ (ids : List String) (i : Nat) (rows : List α),
      (applyOrderLoop touch setOrd i ids rows).length = rows.length := by
  intro ids
  induction ids with
  | nil => intro i rows; rfl
  | cons x rest ih =>
    intro i rows
    simp only [applyOrderLoop]
    rw [ih]
    exact List.length_map rows _

/-- Rows that no listed id can touch are positionally unchanged by the
reorder loop. -/
theorem applyOrderLoop_frame {α : Type} (touch : α → String → Bool) (setOrd : α → Nat → α) :
    ∀ (ids : List String) (i : Nat) (rows : List α) (j : Nat) (r : α),
      rows[j]? = some r → (∀ x, touch r x = false) →
      (applyOrderLoop touch setOrd i ids rows)[j]? = some r := by
  intro ids
  induction ids with
  | nil => intro i rows j r hj _; exact hj
  | cons x rest ih =>
    intro i rows j r hj hfr
    simp only [applyOrderLoop]
    apply ih
    · rw [List.getElem?_map, hj]
      simp [hfr x]
    · exact hfr

/-- A row of the result whose id is not among the listed ids was already in
the input rows, unchanged. -/
theorem applyOrderLoop_not_mem {α : Type} (touch : α → String → Bool) (setOrd : α → Nat → α)
    (getId : α → String)
    (hTouchId : ∀ r x, touch r x = true → getId r = x)
    (hSetId : ∀ r n, getId (setOrd r n) = getId r) :
    ∀ (ids : List String) (i : Nat) (rows : List α) (cid : String),
      cid ∉ ids →
      ∀ r ∈ applyOrderLoop touch setOrd i ids rows, getId r = cid → r ∈ rows := by
  intro ids
  induction ids with
  | nil => intro i rows cid _ r hr _; exact hr
  | cons x rest ih =>
    intro i rows cid hnot r hr hid
    have hxne : cid ≠ x := by
      intro h2; exact hnot (h2 ▸ List.mem_cons_self x rest)
    have hrest : cid ∉ rest := fun h2 => hnot (List.mem_cons_of_mem x h2)
    simp only [applyOrderLoop] at hr
    have hr2 := ih (i + 1) _ cid hrest r hr hid
    rw [List.mem_map] at hr2
    obtain ⟨a, ha, hfa⟩ := hr2
    by_cases hcond : touch a x = true
    · exfalso
      have h1 : getId a = x := hTouchId a x hcond
      rw [if_pos hcond] at hfa
      have h2 : getId r = getId a := by rw [← hfa, hSetId]
      exact hxne (by rw [← hid, h2, h1])
    · rw [if_neg hcond] at hfa
      rw [← hfa]
      exact ha

/-- After the reorder loop with pairwise distinct ids, every row the id at
position `k` can touch carries ordering `i + k`. -/
theorem applyOrderLoop_pos {α β : Type} (touch : α → String → Bool) (setOrd : α → Nat → α)
    (getId : α → String) (ordOf : α → β) (ordVal : Nat → β)
    (hTouchId : ∀ r x, touch r x = true → getId r = x)
    (hSetId : ∀ r n, getId (setOrd r n) = getId r)
    (hOrdSet : ∀ r n, ordOf (setOrd r n) = ordVal n) :
    ∀ (ids : List String) (i k : Nat) (cid : String) (rows : List α),
      ids.Nodup → ids[k]? = some cid →
      ∀ r ∈ applyOrderLoop touch setOrd i ids rows, touch r cid = true →
        ordOf r = ordVal (i + k) := by
  intro ids
  induction ids with
  | nil => intro i k cid rows _ hk; simp at hk
  | cons x rest ih =>
    intro i k cid rows hnod hk r hr htr
    obtain ⟨hxnot, hrest⟩ := List.nodup_cons.mp hnod
    cases k with
    | zero =>
      have hcx : cid = x := by
        have := hk
        simp at this
        exact this.symm
      subst hcx
      simp only [applyOrderLoop] at hr
      have hidr : getId r = cid := hTouchId r cid htr
      have hr2 :=
        applyOrderLoop_not_mem touch setOrd getId hTouchId hSetId rest (i + 1) _ cid hxnot
          r hr hidr
      rw [List.mem_map] at hr2
      obtain ⟨a, ha, hfa⟩ := hr2
      by_cases hc : touch a cid = true
      · rw [if_pos hc] at hfa
        rw [← hfa, hOrdSet]
        rfl
      · exfalso
        rw [if_neg hc] at hfa
        rw [← hfa] at htr
        exact hc htr
    | succ k2 =>
      have hk2 : rest[k2]? = some cid := by simpa using hk
      simp only [applyOrderLoop] at hr
      have h2 := ih (i + 1) k2 cid _ hrest hk2 r hr htr
      rw [h2]
      congr 1
      omega

/-! ## Inversion of the reorder endpoints -/

theorem update_card_order_ok (db : DB) (pid gid : String) (ids : List String) (db' : DB)
    (h : update_card_order db pid gid ids = Except.ok db') :
    db'.cards = applyCardOrder gid 0 ids db.cards := by
  unfold update_card_order at h
  cases hf : db.groups.find? (fun g => g.id == gid && g.project_id == pid) with
  | none => rw [hf] at h; exact Except.noConfusion h
  | some g =>
    rw [hf] at h
    have h2 : ({ db with cards := applyCardOrder gid 0 ids db.cards } : DB) = db' := by
      exact Except.ok.inj h
    rw [← h2]

theorem update_worldview_card_order_ok (verify : String → String → Bool) (db : DB)
    (pid : String) (pw : Option String) (gid : String) (ids : List String) (db' : DB)
    (h : update_worldview_card_order verify db pid pw gid ids = Except.ok db') :
    db'.worldview_cards = applyWvCardOrderById 0 ids db.worldview_cards := by
  obtain ⟨proj, hg, hk⟩ := withProject_eq_ok verify db pid pw _ db' h
  cases hf : db.worldview_groups.find? (fun g => g.id == gid && g.project_id == proj.id) with
  | none => rw [hf] at hk; exact Except.noConfusion hk
  | some g =>
    rw [hf] at hk
    have h2 : ({ db with worldview_cards := applyWvCardOrderById 0 ids db.worldview_cards } :
        DB) = db' := Except.ok.inj hk
    rw [← h2]

theorem update_manuscript_block_order_ok (verify : String → String → Bool) (db : DB)
    (pid : String) (pw : Option String) (ids : List String) (db' : DB) (proj : ProjectRow)
    (hg : get_project_if_accessible verify db.projects pid pw = GuardResult.ok proj)
    (h : update_manuscript_block_order verify db pid pw ids = Except.ok db') :
    db'.manuscript_blocks = applyBlockOrder proj.id 0 ids db.manuscript_blocks := by
  obtain ⟨proj2, hg2, hk⟩ := withProject_eq_ok verify db pid pw _ db' h
  rw [hg] at hg2
  have hpe : proj = proj2 := GuardResult.ok.inj hg2
  subst hpe
  have h2 : ({ db with manuscript_blocks := applyBlockOrder proj.id 0 ids db.manuscript_blocks } :
      DB) = db' := Except.ok.inj hk
  rw [← h2]

/-! ## Claim C6 — card reorder assigns list positions -/

/-- C6: on a group whose cards `c1, c2, c3` have orderings `0, 1, 2`, the
reorder request `[c3, c1, c2]` yields `c3 → 0`, `c1 → 1`, `c2 → 2`; and in
general, for a duplicate-free id list, every card of the target group whose
id sits at position `k` of the list ends with ordering `k`. -/
theorem claim_C6_card_reorder :
    ((update_card_order dbThreeCards "P" "G" ["c3", "c1", "c2"]).map
        (fun d => d.cards.map (fun c => (c.id, c.ordering))) =
      Except.ok [("c1", some 1), ("c2", some 2), ("c3", some 0)]) ∧
    (∀ (db : DB) (pid gid : String) (ids : List String) (db' : DB),
      update_card_order db pid gid ids = Except.ok db' → ids.Nodup →
      ∀ k cid, ids[k]? = some cid →
        ∀ c ∈ db'.cards, c.id = cid → c.group_id = gid →
          c.ordering = some (Int.ofNat k)) := by
  constructor
  · rfl
  · intro db pid gid ids db' h hnod k cid hk c hc hcid hcg
    rw [update_card_order_ok db pid gid ids db' h] at hc
    unfold applyCardOrder at hc
    have htouch : (c.id == cid && c.group_id == gid) = true := by
      simp [hcid, hcg]
    have h2 :=
      applyOrderLoop_pos (fun c2 cid2 => c2.id == cid2 && c2.group_id == gid)
        (fun c2 i => { c2 with ordering := some (Int.ofNat i) })
        (fun c2 => c2.id) (fun c2 => c2.ordering) (fun i => some (Int.ofNat i))
        (fun r x hx => by simpa using (Bool.and_eq_true .. |>.mp hx).1)
        (fun r n => rfl) (fun r n => rfl)
        ids 0 k cid db.cards hnod hk c hc htouch
    simpa using h2

/-- Witness for C6: applying the general clause to the concrete database
puts card `c3` at ordering 0. -/
theorem claim_C6_card_reorder_witness :
    (⟨"c3", "G", "셋", none, FieldVal.vnull, FieldVal.vnull, FieldVal.vnull, FieldVal.vnull,
      none, some 0⟩ : CardRow).ordering = some 0 :=
  claim_C6_card_reorder.2 dbThreeCards "P" "G" ["c3", "c1", "c2"] dbThreeCardsReordered
    rfl (by decide) 0 "c3" rfl
    ⟨"c3", "G", "셋", none, FieldVal.vnull, FieldVal.vnull, FieldVal.vnull, FieldVal.vnull,
      none, some 0⟩ (by decide) rfl rfl

/-! ## Claim C4 — reorder scoping -/

/-- C4, counterexample: reordering worldview group `g1` with a list that
mentions `w2` — a card of the DIFFERENT group `g2` — changes the stored
ordering of `w2` from 0 to 1, because `update_worldview_card_order` filters
its UPDATE by primary key only. -/
theorem claim_C4_counterexample :
    dbTwoWvGroups.worldview_cards.map (fun c => (c.id, c.group_id, c.ordering)) =
      [("w1", "g1", (0 : Int)), ("w2", "g2", 0)] ∧
    (update_worldview_card_order verifyNever dbTwoWvGroups "P" none "g1" ["w1", "w2"]).map
        (fun d => d.worldview_cards.map (fun c => (c.id, c.group_id, c.ordering))) =
      Except.ok [("w1", "g1", 0), ("w2", "g2", 1)] ∧
    ((1 : Int) ≠ 0) := ⟨rfl, rfl, by decide⟩

/-- C4 (amended): the card reorder and the manuscript block reorder scope
every UPDATE by the parent id، so rows outside the target sibling scope are
unchanged; the worldview card reorder however updates rows by primary key
only, so any worldview card whose id appears in the list receives its list
position as ordering, regardless of its group. -/
theorem claim_C4_amended :
    (∀ (db : DB) (pid gid : String) (ids : List String) (db' : DB),
      update_card_order db pid gid ids = Except.ok db' →
      ∀ (j : Nat) (c : CardRow), db.cards[j]? = some c → (c.group_id == gid) = false →
        db'.cards[j]? = some c) ∧
    (∀ (verify : String → String → Bool) (db : DB) (pid : String) (pw : Option String)
        (ids : List String) (db' : DB) (proj : ProjectRow),
      get_project_if_accessible verify db.projects pid pw = GuardResult.ok proj →
      update_manuscript_block_order verify db pid pw ids = Except.ok db' →
      ∀ (j : Nat) (b : ManuscriptBlockRow), db.manuscript_blocks[j]? = some b →
        (b.project_id == proj.id) = false → db'.manuscript_blocks[j]? = some b) ∧
    (∀ (verify : String → String → Bool) (db : DB) (pid : String) (pw : Option String)
        (gid : String) (ids : List String) (db' : DB),
      update_worldview_card_order verify db pid pw gid ids = Except.ok db' → ids.Nodup →
      ∀ k cid, ids[k]? = some cid →
        ∀ c ∈ db'.worldview_cards, c.id = cid → c.ordering = Int.ofNat k) := by
  refine ⟨?_, ?_, ?_⟩
  · intro db pid gid ids db' h j c hj hg
    rw [update_card_order_ok db pid gid ids db' h]
    unfold applyCardOrder
    exact applyOrderLoop_frame _ _ ids 0 db.cards j c hj (fun x => by simp [hg])
  · intro verify db pid pw ids db' proj hg h j b hj hb
    rw [update_manuscript_block_order_ok verify db pid pw ids db' proj hg h]
    unfold applyBlockOrder
    exact applyOrderLoop_frame _ _ ids 0 db.manuscript_blocks j b hj (fun x => by simp [hb])
  · intro verify db pid pw gid ids db' h hnod k cid hk c hc hcid
    rw [update_worldview_card_order_ok verify db pid pw gid ids db' h] at hc
    unfold applyWvCardOrderById at hc
    have h2 := applyOrderLoop_pos (fun c2 cid2 => c2.id == cid2)
      (fun c2 i => { c2 with ordering := Int.ofNat i })
      (fun c2 => c2.id) (fun c2 => c2.ordering) (fun i => Int.ofNat i)
      (fun r x hx => by simpa using hx) (fun r n => rfl) (fun r n => rfl)
      ids 0 k cid db.worldview_cards hnod hk c hc (by simp [hcid])
    simpa using h2

/-- Witness for C4 (amended): the concrete reorder of group `G` leaves the
card `x` of group `H` untouched at position 0. -/
theorem claim_C4_amended_witness :
    dbCardTwoGroupsAfter.cards[0]? =
      some ⟨"x", "H", "외부", none, FieldVal.vnull, FieldVal.vnull, FieldVal.vnull,
        FieldVal.vnull, none, some 0⟩ :=
  claim_C4_amended.1 dbCardTwoGroups "P" "G" ["x"] dbCardTwoGroupsAfter rfl 0
    ⟨"x", "H", "외부", none, FieldVal.vnull, FieldVal.vnull, FieldVal.vnull,
      FieldVal.vnull, none, some 0⟩ rfl (by decide)

/-! ## Claim C2 — password gating of descendant endpoints -/

theorem orderedInsert_hash_map (f : ProjectRow → ProjectRow) (hf : ∀ p, (f p).name = p.name)
    (a : ProjectRow) (l : List ProjectRow) :
    List.orderedInsert (fun x y => x.name ≤ y.name) (f a) (l.map f) =
      (List.orderedInsert (fun x y => x.name ≤ y.name) a l).map f := by
  induction l with
  | nil => simp [List.orderedInsert]
  | cons b t ih =>
    simp only [List.map_cons, List.orderedInsert]
    by_cases h : a.name ≤ b.name
    · have h' : (f a).name ≤ (f b).name := by rw [hf a, hf b]; exact h
      rw [if_pos h', if_pos h, List.map_cons, List.map_cons]
    · have h' : ¬(f a).name ≤ (f b).name := by rw [hf a, hf b]; exact h
      rw [if_neg h', if_neg h, List.map_cons, ih]

theorem insertionSort_hash_map (f : ProjectRow → ProjectRow) (hf : ∀ p, (f p).name = p.name)
    (l : List ProjectRow) :
    List.insertionSort (fun x y => x.name ≤ y.name) (l.map f) =
      (List.insertionSort (fun x y => x.name ≤ y.name) l).map f := by
  induction l with
  | nil => simp [List.insertionSort]
  | cons b t ih =>
    simp only [List.map_cons, List.insertionSort, ih]
    exact orderedInsert_hash_map f hf b _

/-- C2, counterexample: the project of `dbProtected` has a password hash
set, yet `add_card_to_project` — which takes no password input at all —
creates a card in it. -/
theorem claim_C2_counterexample :
    dbProtected.projects = [⟨"P", "비밀 프로젝트", some "bcrypt-hash-of-password"⟩] ∧
    (add_card_to_project 9 dbProtected "P" "G" ccSample).map
        (fun d => d.cards.map (fun c => c.name)) = Except.ok ["아무개"] := ⟨rfl, rfl⟩

/-- C2 (amended): the password gates only the endpoints that resolve the
project through `get_project_if_accessible` — modeled here by
`delete_group` and `update_card`, which answer 403 whenever the guard
rejects the password.  The gating is not universal over descendant access:
the card create / delete / move / reorder endpoints of `generators.py`
take no password and their behaviour is invariant under any change of any
project's stored password hash; and the listing endpoint
`GET /api/v1/projects` (`get_projects`) takes no password either — its
response is invariant under any change of stored password hashes, contains
an entry for every project of the database (protected or not), and that
entry's group sections expose exactly the names of all the group's stored
cards. -/
theorem claim_C2_amended :
    (∀ (verify : String → String → Bool) (db : DB) (pid : String) (pw : Option String)
        (gid : String),
      get_project_if_accessible verify db.projects pid pw = GuardResult.forbidden →
      delete_group verify db pid pw gid = Except.error ⟨403⟩) ∧
    (∀ (verify : String → String → Bool) (db : DB) (pid : String) (pw : Option String)
        (cid : String) (req : UpdateCardRequestE),
      get_project_if_accessible verify db.projects pid pw = GuardResult.forbidden →
      update_card verify db pid pw cid req = Except.error ⟨403⟩) ∧
    (∀ (ts : Nat) (db : DB) (pid2 : String) (h : Option String) (pid gid : String)
        (card : CharacterCard),
      add_card_to_project ts (setProjectHash db pid2 h) pid gid card =
        Except.map (fun d => setProjectHash d pid2 h) (add_card_to_project ts db pid gid card)) ∧
    (∀ (db : DB) (pid2 : String) (h : Option String) (pid gid cid : String),
      delete_card_from_project (setProjectHash db pid2 h) pid gid cid =
        Except.map (fun d => setProjectHash d pid2 h) (delete_card_from_project db pid gid cid)) ∧
    (∀ (db : DB) (pid2 : String) (h : Option String) (pid cid tgid : String),
      move_card (setProjectHash db pid2 h) pid cid tgid =
        Except.map (fun d => setProjectHash d pid2 h) (move_card db pid cid tgid)) ∧
    (∀ (db : DB) (pid2 : String) (h : Option String) (pid gid : String) (ids : List String),
      update_card_order (setProjectHash db pid2 h) pid gid ids =
        Except.map (fun d => setProjectHash d pid2 h) (update_card_order db pid gid ids)) ∧
    (∀ (db : DB) (pid2 : String) (h : Option String),
      get_projects (setProjectHash db pid2 h) = get_projects db) ∧
    (∀ (db : DB) (p : ProjectRow), p ∈ db.projects → assembleProject db p ∈ get_projects db) ∧
    (∀ (db : DB) (g : GroupRow),
      ((assembleGroup db g).cards.map (fun c => c.name)).Perm
        ((db.cards.filter (fun c => c.group_id == g.id)).map (fun c => c.name))) := by
  refine ⟨?_, ?_, ?_, ?_, ?_, ?_, ?_, ?_, ?_⟩
  · intro verify db pid pw gid hg
    unfold delete_group
    exact withProject_forbidden verify db pid pw _ hg
  · intro verify db pid pw cid req hg
    unfold update_card
    exact withProject_forbidden verify db pid pw _ hg
  · intro ts db pid2 h2 pid gid card
    cases hf : db.groups.find? (fun g => g.id == gid && g.project_id == pid) with
    | none => simp only [add_card_to_project, setProjectHash, hf, Except.map]
    | some g => simp only [add_card_to_project, setProjectHash, hf, Except.map]
  · intro db pid2 h2 pid gid cid
    cases hf : db.cards.find?
        (fun c => c.id == cid && c.group_id == gid && cardJoinsProject db c pid) with
    | none =>
      simp only [cardJoinsProject] at hf
      simp only [delete_card_from_project, setProjectHash, cardJoinsProject, hf, Except.map]
    | some c =>
      simp only [cardJoinsProject] at hf
      simp only [delete_card_from_project, setProjectHash, cardJoinsProject, hf, Except.map]
  · intro db pid2 h2 pid cid tgid
    cases hf : db.cards.find? (fun c => c.id == cid && cardJoinsProject db c pid) with
    | none =>
      simp only [cardJoinsProject] at hf
      simp only [move_card, setProjectHash, cardJoinsProject, hf, Except.map]
    | some c =>
      simp only [cardJoinsProject] at hf
      simp only [move_card, setProjectHash, cardJoinsProject, hf, Except.map]
  · intro db pid2 h2 pid gid ids
    cases hf : db.groups.find? (fun g => g.id == gid && g.project_id == pid) with
    | none => simp only [update_card_order, setProjectHash, hf, Except.map]
    | some g => simp only [update_card_order, setProjectHash, hf, Except.map]
  · intro db pid2 h2
    have hf : ∀ p : ProjectRow,
        ((fun p => if p.id == pid2 then { p with hashed_password := h2 } else p) p).name =
          p.name := by
      intro p; by_cases hp : p.id == pid2 <;> simp [hp]
    have hid : ∀ p : ProjectRow,
        ((fun p => if p.id == pid2 then { p with hashed_password := h2 } else p) p).id =
          p.id := by
      intro p; by_cases hp : p.id == pid2 <;> simp [hp]
    show (List.insertionSort (fun a b => a.name ≤ b.name)
        (db.projects.map
          (fun p => if p.id == pid2 then { p with hashed_password := h2 } else p))).map
        (assembleProject (setProjectHash db pid2 h2)) = _
    rw [insertionSort_hash_map _ hf, List.map_map]
    apply List.map_congr_left
    intro p hp
    have hgroups : (setProjectHash db pid2 h2).groups = db.groups := rfl
    have hgrp : assembleGroup (setProjectHash db pid2 h2) = assembleGroup db := rfl
    simp only [Function.comp, assembleProject, hid p, hf p, hgroups, hgrp]
  · intro db p hp
    exact List.mem_map.mpr ⟨p, (List.mem_insertionSort _).mpr hp, rfl⟩
  · intro db g
    have hperm := List.perm_insertionSort (fun a b => cardOrdLe a b = true)
      (db.cards.filter (fun c => c.group_id == g.id))
    have h2 := hperm.map (fun c => c.name)
    simpa [assembleGroup, Function.comp, assembleCard] using h2

/-- Witness for C2 (amended): a guarded endpoint concretely rejecting a
missing password on the protected project, while the unguarded listing
concretely contains the protected project's entry. -/
theorem claim_C2_amended_witness :
    delete_group verifyNever dbProtected "P" none "G" = Except.error ⟨403⟩ ∧
    assembleProject dbProtected ⟨"P", "비밀 프로젝트", some "bcrypt-hash-of-password"⟩ ∈
      get_projects dbProtected :=
  ⟨claim_C2_amended.1 verifyNever dbProtected "P" none "G" rfl,
   claim_C2_amended.2.2.2.2.2.2.2.1 dbProtected
     ⟨"P", "비밀 프로젝트", some "bcrypt-hash-of-password"⟩ (by decide)⟩

/-! ## Claim C3 — round-trip of card list fields -/

theorem update_card_ok_shape (verify : String → String → Bool) (db : DB) (pid : String)
    (pw : Option String) (cid : String) (req : UpdateCardRequestE) (db' : DB)
    (h : update_card verify db pid pw cid req = Except.ok db') :
    ∃ proj c0,
      get_project_if_accessible verify db.projects pid pw = GuardResult.ok proj ∧
      db.cards.find? (fun c => c.id == cid && cardJoinsProject db c proj.id) = some c0 ∧
      db'.cards = db.cards.map (fun c =>
        if c.id == cid && cardJoinsProject db c proj.id then applyCardUpdate req c else c) := by
  obtain ⟨proj, hg, hk⟩ := withProject_eq_ok verify db pid pw _ db' h
  cases hf : db.cards.find? (fun c => c.id == cid && cardJoinsProject db c proj.id) with
  | none => rw [hf] at hk; exact Except.noConfusion hk
  | some c0 =>
    rw [hf] at hk
    refine ⟨proj, c0, hg, hf, ?_⟩
    have h2 := Except.ok.inj hk
    rw [← h2]

/-- Every card of the updated table carrying the target id is the
`applyCardUpdate` image of a card of the old table. -/
theorem update_card_row (verify : String → String → Bool) (db : DB) (pid : String)
    (pw : Option String) (cid : String) (req : UpdateCardRequestE) (db' : DB)
    (h : update_card verify db pid pw cid req = Except.ok db')
    (hnod : (db.cards.map (fun c => c.id)).Nodup) :
    ∀ c ∈ db'.cards, c.id = cid →
      ∃ a, a ∈ db.cards ∧ a.id = cid ∧ c = applyCardUpdate req a := by
  obtain ⟨proj, c0, hg, hf, hcards⟩ := update_card_ok_shape verify db pid pw cid req db' h
  have hc0mem := List.mem_of_find?_eq_some hf
  have hc0pred := List.find?_some hf
  rw [Bool.and_eq_true] at hc0pred
  have hc0id : c0.id = cid := by simpa using hc0pred.1
  intro c hc hcid
  rw [hcards, List.mem_map] at hc
  obtain ⟨a, ha, hfa⟩ := hc
  by_cases hcond : (a.id == cid && cardJoinsProject db a proj.id) = true
  · rw [if_pos hcond] at hfa
    rw [Bool.and_eq_true] at hcond
    exact ⟨a, ha, by simpa using hcond.1, hfa.symm⟩
  · rw [if_neg hcond] at hfa
    exfalso
    have haid : a.id = cid := by rw [hfa]; exact hcid
    have hac0 : a = c0 := List.inj_on_of_nodup_map hnod ha hc0mem (by rw [haid, hc0id])
    apply hcond
    rw [Bool.and_eq_true]
    constructor
    · simpa using haid
    · rw [hac0]; exact hc0pred.2

theorem add_card_ok (ts : Nat) (db : DB) (pid gid : String) (card : CharacterCard) (db' : DB)
    (h : add_card_to_project ts db pid gid card = Except.ok db') :
    db'.cards = db.cards ++
      [newCardRow ts gid card (db.cards.filter (fun c => c.group_id == gid)).length] := by
  unfold add_card_to_project at h
  cases hf : db.groups.find? (fun g => g.id == gid && g.project_id == pid) with
  | none => rw [hf] at h; exact Except.noConfusion h
  | some g =>
    rw [hf] at h
    have h2 := Except.ok.inj h
    rw [← h2]

/-- C3, counterexample: the list `["용을 물리친다"]` written through card
creation is read back by project assembly as `[]` (the creation endpoint
double-encodes the list into a JSON string, which assembly blanks), and a
legacy comma string is read back as `[]` rather than as the non-empty
comma-split list. -/
theorem claim_C3_counterexample :
    ccSample.goal = ["용을 물리친다"] ∧
    (add_card_to_project 5 dbOneGroup "P" "G" ccSample).map
        (fun d => d.cards.map (fun c => assembleField c.goal)) = Except.ok [some []] ∧
    some ([] : List String) ≠ some ["용을 물리친다"] ∧
    assembleField (FieldVal.vstr "검,방패") = some [] ∧
    some ([] : List String) ≠ some ["검", "방패"] :=
  ⟨rfl, rfl, by decide, rfl, by decide⟩

/-- C3 (amended): a list written through the card-UPDATE endpoint is
returned unchanged by project assembly; but the card-CREATION endpoint
stores `json.dumps` text in the JSON column, and project assembly returns
`[]` for every such stored string — including legacy comma-separated
strings, which are NOT comma-split by assembly (the split fallback lives
only in `parse_card_fields`, used for single-card responses). -/
theorem claim_C3_amended :
    (∀ (verify : String → String → Bool) (db : DB) (pid : String) (pw : Option String)
        (cid : String) (req : UpdateCardRequestE) (db' : DB),
      update_card verify db pid pw cid req = Except.ok db' →
      (db.cards.map (fun c => c.id)).Nodup →
      ∀ c ∈ db'.cards, c.id = cid →
        (∀ xs, req.goal = some (some xs) → assembleField c.goal = some xs) ∧
        (∀ xs, req.personality = some (some xs) → assembleField c.personality = some xs) ∧
        (∀ xs, req.abilities = some (some xs) → assembleField c.abilities = some xs) ∧
        (∀ xs, req.quote = some (some xs) → assembleField c.quote = some xs)) ∧
    (∀ (ts : Nat) (db : DB) (pid gid : String) (card : CharacterCard) (db' : DB),
      add_card_to_project ts db pid gid card = Except.ok db' →
      ∃ row, db'.cards = db.cards ++ [row] ∧
        assembleField row.goal = some [] ∧ assembleField row.personality = some [] ∧
        assembleField row.abilities = some [] ∧ assembleField row.quote = some []) ∧
    (∀ s, assembleField (FieldVal.vstr s) = some []) := by
  refine ⟨?_, ?_, ?_⟩
  · intro verify db pid pw cid req db' h hnod c hc hcid
    obtain ⟨a, _, _, hca⟩ := update_card_row verify db pid pw cid req db' h hnod c hc hcid
    subst hca
    refine ⟨?_, ?_, ?_, ?_⟩ <;>
      (intro xs hreq; simp [applyCardUpdate, hreq, applyFieldUpdate, assembleField])
  · intro ts db pid gid card db' h
    exact ⟨_, add_card_ok ts db pid gid card db' h, rfl, rfl, rfl, rfl⟩
  · intro s; rfl

/-- Witness for C3 (amended): the goal list `["복수"]` written through
`update_card` reads back as `["복수"]` under project assembly. -/
theorem claim_C3_amended_witness :
    assembleField (⟨"a", "G", "가온", none, FieldVal.vlist ["복수"], FieldVal.vnull,
      FieldVal.vnull, FieldVal.vnull, none, some 0⟩ : CardRow).goal = some ["복수"] :=
  ((claim_C3_amended.1 verifyNever dbTwoCards "P" none "a" reqUpdGoal dbTwoCardsUpdated rfl
      (by decide)
      ⟨"a", "G", "가온", none, FieldVal.vlist ["복수"], FieldVal.vnull, FieldVal.vnull,
        FieldVal.vnull, none, some 0⟩ (by decide) rfl).1) ["복수"] rfl

/-! ## Claim C8 — the Uncategorized group and default scenario -/

/-- C8: creating a project inserts exactly one group, named `"미분류"`, and
exactly one scenario, titled `"메인 시나리오"` with empty synopsis and no
plot points, for the new project id; and `delete_group` answers 400 whenever
the group it found is named `"미분류"` (so the group stays, the error path
committing nothing). -/
theorem claim_C8_uncategorized :
    (∀ (hash : String → String) (ts : Nat) (nm : String) (pw : Option String) (db : DB),
      (∀ g ∈ db.groups, ¬g.project_id = "project-" ++ toString ts) →
      (∀ s ∈ db.scenarios, ¬s.project_id = "project-" ++ toString ts) →
      ((create_project hash ts nm pw db).groups.filter
          (fun g => g.project_id == "project-" ++ toString ts)) =
        [⟨"group-uncategorized-" ++ toString ts, "project-" ++ toString ts, "미분류"⟩] ∧
      ((create_project hash ts nm pw db).scenarios.filter
          (fun s => s.project_id == "project-" ++ toString ts)) =
        [⟨"scen-" ++ toString ts, "project-" ++ toString ts, "메인 시나리오", none, none,
          some ""⟩] ∧
      (create_project hash ts nm pw db).plot_points = db.plot_points) ∧
    (∀ (verify : String → String → Bool) (db : DB) (pid : String) (pw : Option String)
        (gid : String) (proj : ProjectRow) (g : GroupRow),
      get_project_if_accessible verify db.projects pid pw = GuardResult.ok proj →
      db.groups.find? (fun g2 => g2.id == gid && g2.project_id == proj.id) = some g →
      g.name = "미분류" →
      delete_group verify db pid pw gid = Except.error ⟨400⟩) := by
  constructor
  · intro hash ts nm pw db hg hs
    refine ⟨?_, ?_, rfl⟩
    · unfold create_project
      rw [List.filter_append]
      have h1 : db.groups.filter (fun g => g.project_id == "project-" ++ toString ts) = [] := by
        rw [List.filter_eq_nil_iff]
        intro g hgm
        simpa using hg g hgm
      rw [h1]
      simp
    · unfold create_project
      rw [List.filter_append]
      have h1 : db.scenarios.filter (fun s => s.project_id == "project-" ++ toString ts) = [] := by
        rw [List.filter_eq_nil_iff]
        intro s hsm
        simpa using hs s hsm
      rw [h1]
      simp
  · intro verify db pid pw gid proj g hgok hfind hname
    simp [delete_group, withProject, hgok, hfind, hname]

/-- Witness for C8: creating a project in the empty database yields the
Uncategorized group and the default scenario. -/
theorem claim_C8_uncategorized_witness :
    ((create_project (fun s => s) 3 "새 작품" none dbEmpty).groups.filter
        (fun g => g.project_id == "project-" ++ toString 3)) =
      [⟨"group-uncategorized-" ++ toString 3, "project-" ++ toString 3, "미분류"⟩] ∧
    ((create_project (fun s => s) 3 "새 작품" none dbEmpty).scenarios.filter
        (fun s => s.project_id == "project-" ++ toString 3)) =
      [⟨"scen-" ++ toString 3, "project-" ++ toString 3, "메인 시나리오", none, none,
        some ""⟩] ∧
    (create_project (fun s => s) 3 "새 작품" none dbEmpty).plot_points = dbEmpty.plot_points :=
  claim_C8_uncategorized.1 (fun s => s) 3 "새 작품" none dbEmpty
    (by intro g hgm; simp [dbEmpty] at hgm) (by intro s hsm; simp [dbEmpty] at hsm)

/-! ## Lemmas about sibling re-indexing -/

theorem mem_enumFrom_snd {α : Type} :
    ∀ (l : List α) (n : Nat) (p : Nat × α), p ∈ List.enumFrom n l → p.2 ∈ l := by
  intro l
  induction l with
  | nil => intro n p hp; simp at hp
  | cons x xs ih =>
    intro n p hp
    rw [List.enumFrom_cons] at hp
    rcases List.mem_cons.mp hp with h | h
    · rw [h]; exact List.mem_cons_self x xs
    · exact List.mem_cons_of_mem x (ih (n + 1) p h)

/-- Applying the enumeration assignment of a duplicate-free list to the list
itself writes `k, k+1, ...` onto its rows in order. -/
theorem reindex_assign_map {α : Type} (ops : RowOps α) :
    ∀ (l : List α) (k : Nat), (l.map ops.rid).Nodup →
      l.map (reindexApply ops
        ((List.enumFrom k l).map (fun p => (ops.rid p.2, Int.ofNat p.1)))) =
      (List.enumFrom k l).map (fun p => ops.setOrd p.2 (Int.ofNat p.1)) := by
  intro l
  induction l with
  | nil => intro k _; rfl
  | cons r rs ih =>
    intro k hnod
    rw [List.map_cons, List.nodup_cons] at hnod
    obtain ⟨hrnot, hnodtl⟩ := hnod
    have hne : ∀ x ∈ rs, ¬(((ops.rid r, Int.ofNat k) :
        String × Int).1 == ops.rid x) = true := by
      intro x hx h2
      rw [beq_iff_eq] at h2
      have h3 : ops.rid r = ops.rid x := h2
      exact hrnot (by rw [h3]; exact List.mem_map_of_mem ops.rid hx)
    have hstep : ∀ x ∈ rs,
        reindexApply ops ((ops.rid r, Int.ofNat k) ::
          (List.enumFrom (k + 1) rs).map (fun p => (ops.rid p.2, Int.ofNat p.1))) x =
        reindexApply ops
          ((List.enumFrom (k + 1) rs).map (fun p => (ops.rid p.2, Int.ofNat p.1))) x := by
      intro x hx
      unfold reindexApply
      have hfind := @List.find?_cons_of_neg (String × Int) (fun q => q.1 == ops.rid x)
        (ops.rid r, Int.ofNat k)
        ((List.enumFrom (k + 1) rs).map (fun p => (ops.rid p.2, Int.ofNat p.1))) (hne x hx)
      rw [hfind]
    simp only [List.enumFrom_cons, List.map_cons]
    congr 1
    · unfold reindexApply
      have hfind := @List.find?_cons_of_pos (String × Int) (fun q => q.1 == ops.rid r)
        (ops.rid r, Int.ofNat k)
        ((List.enumFrom (k + 1) rs).map (fun p => (ops.rid p.2, Int.ofNat p.1))) (by simp)
      rw [hfind]
    · rw [List.map_congr_left hstep]
      exact ih (k + 1) hnodtl

theorem reindex_assign_map0 {α : Type} (ops : RowOps α) (l : List α)
    (hnod : (l.map ops.rid).Nodup) :
    l.map (reindexApply ops (reindexAssign ops l)) =
      (List.enumFrom 0 l).map (fun p => ops.setOrd p.2 (Int.ofNat p.1)) :=
  reindex_assign_map ops l 0 hnod

theorem reindexScope_filter_eq {α : Type} (ops : RowOps α) (inScope : α → Bool)
    (hScope : ∀ r n, inScope (ops.setOrd r n) = inScope r) (table : List α) :
    (reindexScope ops inScope table).filter inScope =
      (table.filter inScope).map
        (reindexApply ops (reindexAssign ops (sortScope ops inScope table))) := by
  unfold reindexScope
  rw [List.filter_map]
  congr 1
  apply List.filter_congr
  intro r _
  simp only [Function.comp_apply]
  unfold reindexApply
  cases (reindexAssign ops (sortScope ops inScope table)).find? (fun q => q.1 == ops.rid r) with
  | none => rfl
  | some q => exact hScope r q.2

theorem sortScope_nodup {α : Type} (ops : RowOps α) (inScope : α → Bool) (table : List α)
    (hnod : (table.map ops.rid).Nodup) :
    ((sortScope ops inScope table).map ops.rid).Nodup := by
  have hnodf : ((table.filter inScope).map ops.rid).Nodup :=
    List.Nodup.sublist (List.Sublist.map ops.rid (List.filter_sublist table)) hnod
  have hpermsort : List.Perm (sortScope ops inScope table) (table.filter inScope) :=
    List.perm_insertionSort _ _
  exact ((hpermsort.map ops.rid).nodup_iff).mpr hnodf

/-- Density: after the re-index the in-scope orderings are a permutation of
`0 .. N-1` where `N` is the current in-scope sibling count. -/
theorem reindexScope_dense {α : Type} (ops : RowOps α) (inScope : α → Bool)
    (hScope : ∀ r n, inScope (ops.setOrd r n) = inScope r)
    (table : List α) (hnod : (table.map ops.rid).Nodup) :
    List.Perm (((reindexScope ops inScope table).filter inScope).map ops.ord)
      ((List.range (table.filter inScope).length).map Int.ofNat) := by
  have hpermsort : List.Perm (sortScope ops inScope table) (table.filter inScope) :=
    List.perm_insertionSort _ _
  have hnods := sortScope_nodup ops inScope table hnod
  rw [reindexScope_filter_eq ops inScope hScope table]
  have hp1 : List.Perm
      ((table.filter inScope).map
        (reindexApply ops (reindexAssign ops (sortScope ops inScope table))))
      ((sortScope ops inScope table).map
        (reindexApply ops (reindexAssign ops (sortScope ops inScope table)))) :=
    List.Perm.map _ hpermsort.symm
  have hp2 := hp1.map ops.ord
  rw [reindex_assign_map0 ops _ hnods] at hp2
  have heq : ((List.enumFrom 0 (sortScope ops inScope table)).map
      (fun p => ops.setOrd p.2 (Int.ofNat p.1))).map ops.ord =
      (List.range (table.filter inScope).length).map Int.ofNat := by
    rw [List.map_map]
    have h3 : ∀ p ∈ List.enumFrom 0 (sortScope ops inScope table),
        (ops.ord ∘ fun p => ops.setOrd p.2 (Int.ofNat p.1)) p = (Int.ofNat ∘ Prod.fst) p := by
      intro p _
      simp [ops.ord_setOrd]
    rw [List.map_congr_left h3]
    rw [← List.map_map]
    rw [List.enumFrom_map_fst]
    rw [← List.range_eq_range']
    rw [hpermsort.length_eq]
  rw [heq] at hp2
  exact hp2

/-- Relative order: the i-th remaining sibling in prior ordering carries new
ordering `i` in the re-indexed table. -/
theorem reindexScope_relorder {α : Type} (ops : RowOps α) (inScope : α → Bool)
    (table : List α) (hnod : (table.map ops.rid).Nodup) :
    ∀ (i : Nat) (r : α), (sortScope ops inScope table)[i]? = some r →
      ∃ r2 ∈ reindexScope ops inScope table,
        ops.rid r2 = ops.rid r ∧ ops.ord r2 = Int.ofNat i := by
  intro i r hi
  have hnods := sortScope_nodup ops inScope table hnod
  have hCAL := reindex_assign_map0 ops _ hnods
  have hL : ((sortScope ops inScope table).map
      (reindexApply ops (reindexAssign ops (sortScope ops inScope table))))[i]? =
      some (reindexApply ops (reindexAssign ops (sortScope ops inScope table)) r) := by
    rw [List.getElem?_map, hi]
    rfl
  have hR : ((List.enumFrom 0 (sortScope ops inScope table)).map
      (fun p => ops.setOrd p.2 (Int.ofNat p.1)))[i]? =
      some (ops.setOrd r (Int.ofNat (0 + i))) := by
    rw [List.getElem?_map, List.getElem?_enumFrom, hi]
    rfl
  have hfr : reindexApply ops (reindexAssign ops (sortScope ops inScope table)) r =
      ops.setOrd r (Int.ofNat (0 + i)) := by
    have h2 := hL
    rw [hCAL, hR] at h2
    exact (Option.some.inj h2).symm
  refine ⟨reindexApply ops (reindexAssign ops (sortScope ops inScope table)) r, ?_, ?_, ?_⟩
  · have hrmem : r ∈ sortScope ops inScope table := by
      rcases List.getElem?_eq_some.mp hi with ⟨hlt, hget⟩
      exact hget ▸ List.getElem_mem hlt
    unfold sortScope at hrmem
    rw [List.mem_insertionSort] at hrmem
    exact List.mem_map_of_mem _ (List.mem_of_mem_filter hrmem)
  · rw [hfr, ops.rid_setOrd]
  · rw [hfr, ops.ord_setOrd]
    congr 1
    omega

/-- Frame: rows outside the re-indexed scope are positionally unchanged. -/
theorem reindexScope_frame {α : Type} (ops : RowOps α) (inScope : α → Bool)
    (table : List α) (hnod : (table.map ops.rid).Nodup) :
    ∀ (j : Nat) (r : α), table[j]? = some r → inScope r = false →
      (reindexScope ops inScope table)[j]? = some r := by
  intro j r hj hsc
  unfold reindexScope
  rw [List.getElem?_map, hj]
  have hrmem : r ∈ table := by
    rcases List.getElem?_eq_some.mp hj with ⟨hlt, hget⟩
    exact hget ▸ List.getElem_mem hlt
  have hfind : (reindexAssign ops (sortScope ops inScope table)).find?
      (fun q => q.1 == ops.rid r) = none := by
    rw [List.find?_eq_none]
    intro q hq h2
    unfold reindexAssign at hq
    rw [List.mem_map] at hq
    obtain ⟨p, hp, hqe⟩ := hq
    have hr2mem : p.2 ∈ sortScope ops inScope table := mem_enumFrom_snd _ 0 p hp
    unfold sortScope at hr2mem
    rw [List.mem_insertionSort] at hr2mem
    have hin : inScope p.2 = true := (List.mem_filter.mp hr2mem).2
    have hmem : p.2 ∈ table := List.mem_of_mem_filter hr2mem
    have hq1 : q.1 = ops.rid p.2 := by rw [← hqe]
    rw [hq1, beq_iff_eq] at h2
    have hppr : p.2 = r := List.inj_on_of_nodup_map hnod hmem hrmem h2
    rw [hppr, hsc] at hin
    exact Bool.noConfusion hin
  show some (reindexApply ops (reindexAssign ops (sortScope ops inScope table)) r) = some r
  unfold reindexApply
  rw [hfind]

/-! ## Inversion of the two re-indexing delete endpoints -/

theorem delete_worldview_card_ok (verify : String → String → Bool) (db : DB) (pid : String)
    (pw : Option String) (cid : String) (db' : DB)
    (h : delete_worldview_card verify db pid pw cid = Except.ok db') :
    ∃ card, card ∈ db.worldview_cards ∧ card.id = cid ∧
      db'.worldview_cards =
        reindexScope wvOps (fun c => c.group_id == card.group_id)
          (db.worldview_cards.filter (fun c => !(c.id == card.id))) := by
  obtain ⟨proj, hg, hk⟩ := withProject_eq_ok verify db pid pw _ db' h
  cases hf : db.worldview_cards.find?
      (fun c => c.id == cid && wvCardJoinsProject db c proj.id) with
  | none => rw [hf] at hk; exact Except.noConfusion hk
  | some card =>
    rw [hf] at hk
    have hpred := List.find?_some hf
    rw [Bool.and_eq_true] at hpred
    refine ⟨card, List.mem_of_find?_eq_some hf, by simpa using hpred.1, ?_⟩
    have h2 := Except.ok.inj hk
    rw [← h2]

theorem delete_plot_point_ok (verify : String → String → Bool) (db : DB) (pid : String)
    (pw : Option String) (ppid : String) (db' : DB)
    (h : delete_plot_point verify db pid pw ppid = Except.ok db') :
    ∃ pp, pp ∈ db.plot_points ∧ pp.id = ppid ∧
      db'.plot_points =
        reindexScope plotOps (fun p => p.scenario_id == pp.scenario_id)
          (db.plot_points.filter (fun p => !(p.id == pp.id))) := by
  obtain ⟨proj, hg, hk⟩ := withProject_eq_ok verify db pid pw _ db' h
  cases hf : db.plot_points.find? (fun p => p.id == ppid && plotJoinsProject db p proj.id) with
  | none => rw [hf] at hk; exact Except.noConfusion hk
  | some pp =>
    rw [hf] at hk
    have hpred := List.find?_some hf
    rw [Bool.and_eq_true] at hpred
    refine ⟨pp, List.mem_of_find?_eq_some hf, by simpa using hpred.1, ?_⟩
    have h2 := Except.ok.inj hk
    rw [← h2]

/-! ## Claim C1 — dense orderings -/

/-- C1, counterexample: deleting card `a` (ordering 0) from a group whose
cards are `a(0), b(1)` leaves the remaining card at ordering 1:
`delete_card_from_project` performs no re-indexing, so the stored ordering
set is `{1}`, not `{0}`. -/
theorem claim_C1_counterexample :
    (delete_card_from_project dbTwoCards "P" "G" "a").map
        (fun d => d.cards.map (fun c => (c.id, c.ordering))) =
      Except.ok [("b", some 1)] ∧
    [some (1 : Int)] ≠ [some 0] := ⟨rfl, by decide⟩

/-- C1 (amended): deleting a worldview card or a plot point re-indexes the
remaining siblings of its scope to exactly `{0..N-1}` in their prior
relative order, inside the same transaction, leaving out-of-scope rows
untouched; deleting a character card performs NO re-indexing (the table
merely loses the row), and inserting a character card appends it with
ordering = the prior sibling count. -/
theorem claim_C1_amended :
    (∀ (verify : String → String → Bool) (db : DB) (pid : String) (pw : Option String)
        (cid : String) (db' : DB),
      delete_worldview_card verify db pid pw cid = Except.ok db' →
      (db.worldview_cards.map (fun c => c.id)).Nodup →
      ∃ card, card ∈ db.worldview_cards ∧ card.id = cid ∧
        (List.Perm
          ((db'.worldview_cards.filter (fun c => c.group_id == card.group_id)).map
            (fun c => c.ordering))
          ((List.range
            (((db.worldview_cards.filter (fun c => !(c.id == card.id))).filter
              (fun c => c.group_id == card.group_id)).length)).map Int.ofNat)) ∧
        (∀ (i : Nat) (r : WorldviewCardRow),
          (sortScope wvOps (fun c => c.group_id == card.group_id)
            (db.worldview_cards.filter (fun c => !(c.id == card.id))))[i]? = some r →
          ∃ r2 ∈ db'.worldview_cards, r2.id = r.id ∧ r2.ordering = Int.ofNat i) ∧
        (∀ (j : Nat) (r : WorldviewCardRow),
          (db.worldview_cards.filter (fun c => !(c.id == card.id)))[j]? = some r →
          (r.group_id == card.group_id) = false →
          db'.worldview_cards[j]? = some r)) ∧
    (∀ (verify : String → String → Bool) (db : DB) (pid : String) (pw : Option String)
        (ppid : String) (db' : DB),
      delete_plot_point verify db pid pw ppid = Except.ok db' →
      (db.plot_points.map (fun p => p.id)).Nodup →
      ∃ pp, pp ∈ db.plot_points ∧ pp.id = ppid ∧
        (List.Perm
          ((db'.plot_points.filter (fun p => p.scenario_id == pp.scenario_id)).map
            (fun p => p.ordering))
          ((List.range
            (((db.plot_points.filter (fun p => !(p.id == pp.id))).filter
              (fun p => p.scenario_id == pp.scenario_id)).length)).map Int.ofNat)) ∧
        (∀ (i : Nat) (r : PlotPointRow),
          (sortScope plotOps (fun p => p.scenario_id == pp.scenario_id)
            (db.plot_points.filter (fun p => !(p.id == pp.id))))[i]? = some r →
          ∃ r2 ∈ db'.plot_points, r2.id = r.id ∧ r2.ordering = Int.ofNat i)) ∧
    (∀ (db : DB) (pid gid cid : String) (db' : DB),
      delete_card_from_project db pid gid cid = Except.ok db' →
      ∃ c0, c0 ∈ db.cards ∧ c0.id = cid ∧
        db'.cards = db.cards.filter (fun c2 => !(c2.id == c0.id))) ∧
    (∀ (ts : Nat) (db : DB) (pid gid : String) (card : CharacterCard) (db' : DB),
      add_card_to_project ts db pid gid card = Except.ok db' →
      db'.cards = db.cards ++
        [newCardRow ts gid card (db.cards.filter (fun c => c.group_id == gid)).length]) := by
  refine ⟨?_, ?_, ?_, ?_⟩
  · intro verify db pid pw cid db' h hnod
    obtain ⟨card, hmem, hcid, hshape⟩ := delete_worldview_card_ok verify db pid pw cid db' h
    have hnodA : ((db.worldview_cards.filter (fun c => !(c.id == card.id))).map
        (fun c => c.id)).Nodup :=
      List.Nodup.sublist (List.Sublist.map _ (List.filter_sublist _)) hnod
    refine ⟨card, hmem, hcid, ?_, ?_, ?_⟩
    · rw [hshape]
      exact reindexScope_dense wvOps (fun c => c.group_id == card.group_id)
        (fun r n => rfl) _ hnodA
    · intro i r hi
      rw [hshape]
      exact reindexScope_relorder wvOps (fun c => c.group_id == card.group_id) _ hnodA i r hi
    · intro j r hj hsc
      rw [hshape]
      exact reindexScope_frame wvOps (fun c => c.group_id == card.group_id) _ hnodA j r hj hsc
  · intro verify db pid pw ppid db' h hnod
    obtain ⟨pp, hmem, hppid, hshape⟩ := delete_plot_point_ok verify db pid pw ppid db' h
    have hnodA : ((db.plot_points.filter (fun p => !(p.id == pp.id))).map
        (fun p => p.id)).Nodup :=
      List.Nodup.sublist (List.Sublist.map _ (List.filter_sublist _)) hnod
    refine ⟨pp, hmem, hppid, ?_, ?_⟩
    · rw [hshape]
      exact reindexScope_dense plotOps (fun p => p.scenario_id == pp.scenario_id)
        (fun r n => rfl) _ hnodA
    · intro i r hi
      rw [hshape]
      exact reindexScope_relorder plotOps (fun p => p.scenario_id == pp.scenario_id) _ hnodA
        i r hi
  · intro db pid gid cid db' h
    unfold delete_card_from_project at h
    cases hf : db.cards.find?
        (fun c => c.id == cid && c.group_id == gid && cardJoinsProject db c pid) with
    | none => rw [hf] at h; exact Except.noConfusion h
    | some c0 =>
      rw [hf] at h
      have hpred := List.find?_some hf
      rw [Bool.and_eq_true, Bool.and_eq_true] at hpred
      refine ⟨c0, List.mem_of_find?_eq_some hf, by simpa using hpred.1.1, ?_⟩
      have h2 := Except.ok.inj h
      rw [← h2]
  · intro ts db pid gid card db' h
    exact add_card_ok ts db pid gid card db' h

/-- Witness for C1 (amended): the concrete insert appends at ordering 0 (the
prior sibling count of the empty group). -/
theorem claim_C1_amended_witness :
    dbOneGroupAdded.cards = dbOneGroup.cards ++ [newCardRow 5 "G" ccSample 0] :=
  claim_C1_amended.2.2.2 5 dbOneGroup "P" "G" ccSample dbOneGroupAdded rfl

/-! ## Claim C5 — sample cloning -/

theorem cloneRel_foldl_proj (ts : Nat) (pid : String) (m : List (String × String)) :
    ∀ (srs : List SampleRelationship) (acc : List RelationshipRow),
      (srs.foldl (cloneRelStep ts pid m) acc).map
          (fun r => (r.source_character_id, r.target_character_id, r.type)) =
        acc.map (fun r => (r.source_character_id, r.target_character_id, r.type)) ++
          srs.filterMap (fun sr =>
            match mapLookup m sr.source_character_id, mapLookup m sr.target_character_id with
            | some s, some t => some (s, t, sr.type)
            | _, _ => none) := by
  intro srs
  induction srs with
  | nil => intro acc; simp
  | cons sr rest ih =>
    intro acc
    rw [List.foldl_cons, List.filterMap_cons, ih]
    cases hs : mapLookup m sr.source_character_id with
    | none =>
      have hstep : cloneRelStep ts pid m acc sr = acc := by
        unfold cloneRelStep
        rw [hs]
      rw [hstep]
    | some s =>
      cases ht : mapLookup m sr.target_character_id with
      | none =>
        have hstep : cloneRelStep ts pid m acc sr = acc := by
          unfold cloneRelStep
          rw [hs, ht]
        rw [hstep]
      | some t =>
        have hstep : cloneRelStep ts pid m acc sr = acc ++
            [{ id := "rel-" ++ toString ts ++ "-" ++ toString acc.length,
               project_id := pid,
               source_character_id := s,
               target_character_id := t,
               type := sr.type,
               description := some (sr.description.getD ""),
               phase_order := sr.phase_order.getD 1 }] := by
          unfold cloneRelStep
          rw [hs, ht]
        rw [hstep]
        simp [hs, ht]

theorem cardFold_groups (ts : Nat) (gid : String) :
    ∀ (l : List (Nat × SampleCard)) (st : CloneState),
      (l.foldl (addSampleCard ts gid) st).groups = st.groups := by
  intro l
  induction l with
  | nil => intro st; rfl
  | cons p rest ih =>
    intro st
    rw [List.foldl_cons, ih]
    rfl

theorem cardFold_cards_names (ts : Nat) (gid : String) :
    ∀ (l : List (Nat × SampleCard)) (st : CloneState),
      ((l.foldl (addSampleCard ts gid) st).cards).map (fun c => c.name) =
        st.cards.map (fun c => c.name) ++ l.map (fun p => p.2.name) := by
  intro l
  induction l with
  | nil => intro st; simp
  | cons p rest ih =>
    intro st
    rw [List.foldl_cons, ih]
    simp [addSampleCard]

theorem groupFold_groups_names (ts : Nat) (pid : String) :
    ∀ (sgs : List SampleGroup) (st : CloneState),
      ((sgs.foldl (addSampleGroup ts pid) st).groups).map (fun g => g.name) =
        st.groups.map (fun g => g.name) ++ sgs.map (fun g => g.name) := by
  intro sgs
  induction sgs with
  | nil => intro st; simp
  | cons sg rest ih =>
    intro st
    rw [List.foldl_cons, ih]
    have h1 : (addSampleGroup ts pid st sg).groups = st.groups ++
        [⟨"group-" ++ toString ts ++ "-" ++ toString st.groups.length, pid, sg.name⟩] := by
      unfold addSampleGroup
      rw [cardFold_groups]
    rw [h1]
    simp

theorem groupFold_cards_names (ts : Nat) (pid : String) :
    ∀ (sgs : List SampleGroup) (st : CloneState),
      ((sgs.foldl (addSampleGroup ts pid) st).cards).map (fun c => c.name) =
        st.cards.map (fun c => c.name) ++
          (sgs.map (fun g => (g.cards.getD []).map (fun c => c.name))).flatten := by
  intro sgs
  induction sgs with
  | nil => intro st; simp
  | cons sg rest ih =>
    intro st
    rw [List.foldl_cons, ih]
    have h1 : ((addSampleGroup ts pid st sg).cards).map (fun c => c.name) =
        st.cards.map (fun c => c.name) ++ (sg.cards.getD []).map (fun c => c.name) := by
      unfold addSampleGroup
      rw [cardFold_cards_names]
      congr 1
      rw [show (fun p : Nat × SampleCard => p.2.name) =
        ((fun c : SampleCard => c.name) ∘ Prod.snd) from rfl]
      rw [← List.map_map, List.enum_map_snd]
    rw [h1]
    simp

theorem mapLookup_mono (k : String) (ext m : List (String × String))
    (h : (mapLookup m k).isSome = true) : (mapLookup (ext ++ m) k).isSome = true := by
  unfold mapLookup at h ⊢
  rw [List.find?_append]
  cases hm : m.find? (fun p => p.1 == k) with
  | none => rw [hm] at h; simp at h
  | some q =>
    cases he : ext.find? (fun p => p.1 == k) with
    | none => simp [Option.or]
    | some q2 => simp [Option.or]

theorem cardFold_map_ext (ts : Nat) (gid : String) :
    ∀ (l : List (Nat × SampleCard)) (st : CloneState),
      ∃ ext, (l.foldl (addSampleCard ts gid) st).card_id_map = ext ++ st.card_id_map := by
  intro l
  induction l with
  | nil => intro st; exact ⟨[], rfl⟩
  | cons p rest ih =>
    intro st
    rw [List.foldl_cons]
    obtain ⟨ext, hext⟩ := ih (addSampleCard ts gid st p)
    refine ⟨ext ++
      [(sampleCardKey p.2, "card-" ++ toString ts ++ "-" ++ toString st.cards.length)], ?_⟩
    rw [hext]
    have hhead : (addSampleCard ts gid st p).card_id_map =
        (sampleCardKey p.2, "card-" ++ toString ts ++ "-" ++ toString st.cards.length) ::
          st.card_id_map := rfl
    rw [hhead]
    simp

theorem groupFold_map_ext (ts : Nat) (pid : String) :
    ∀ (sgs : List SampleGroup) (st : CloneState),
      ∃ ext, (sgs.foldl (addSampleGroup ts pid) st).card_id_map = ext ++ st.card_id_map := by
  intro sgs
  induction sgs with
  | nil => intro st; exact ⟨[], rfl⟩
  | cons sg rest ih =>
    intro st
    rw [List.foldl_cons]
    obtain ⟨ext1, hext1⟩ := ih (addSampleGroup ts pid st sg)
    have h2 := cardFold_map_ext ts
      ("group-" ++ toString ts ++ "-" ++ toString st.groups.length)
      ((sg.cards.getD []).enum)
      { st with groups := st.groups ++
          [⟨"group-" ++ toString ts ++ "-" ++ toString st.groups.length, pid, sg.name⟩] }
    obtain ⟨ext2, hext2⟩ := h2
    refine ⟨ext1 ++ ext2, ?_⟩
    rw [hext1]
    have h3 : (addSampleGroup ts pid st sg).card_id_map = ext2 ++ st.card_id_map := hext2
    rw [h3]
    simp

theorem cardFold_key_present (ts : Nat) (gid : String) :
    ∀ (l : List (Nat × SampleCard)) (st : CloneState) (sc : SampleCard),
      sc ∈ l.map (fun p => p.2) →
      (mapLookup ((l.foldl (addSampleCard ts gid) st).card_id_map)
        (sampleCardKey sc)).isSome = true := by
  intro l
  induction l with
  | nil => intro st sc hmem; simp at hmem
  | cons p rest ih =>
    intro st sc hmem
    rw [List.map_cons] at hmem
    rw [List.foldl_cons]
    rcases List.mem_cons.mp hmem with h | h
    · obtain ⟨ext, hext⟩ := cardFold_map_ext ts gid rest (addSampleCard ts gid st p)
      rw [hext]
      apply mapLookup_mono
      subst h
      have hhead : (addSampleCard ts gid st p).card_id_map =
          (sampleCardKey p.2, "card-" ++ toString ts ++ "-" ++ toString st.cards.length) ::
            st.card_id_map := rfl
      unfold mapLookup
      rw [hhead]
      have hfind := @List.find?_cons_of_pos (String × String)
        (fun q => q.1 == sampleCardKey p.2)
        (sampleCardKey p.2, "card-" ++ toString ts ++ "-" ++ toString st.cards.length)
        st.card_id_map (by simp)
      rw [hfind]
      rfl
    · exact ih (addSampleCard ts gid st p) sc h

theorem groupFold_key_present (ts : Nat) (pid : String) :
    ∀ (sgs : List SampleGroup) (st : CloneState) (sg : SampleGroup) (sc : SampleCard),
      sg ∈ sgs → sc ∈ sg.cards.getD [] →
      (mapLookup ((sgs.foldl (addSampleGroup ts pid) st).card_id_map)
        (sampleCardKey sc)).isSome = true := by
  intro sgs
  induction sgs with
  | nil => intro st sg sc hsg _; simp at hsg
  | cons g rest ih =>
    intro st sg sc hsg hsc
    rw [List.foldl_cons]
    rcases List.mem_cons.mp hsg with h | h
    · subst h
      obtain ⟨ext, hext⟩ := groupFold_map_ext ts pid rest (addSampleGroup ts pid st sg)
      rw [hext]
      apply mapLookup_mono
      unfold addSampleGroup
      apply cardFold_key_present
      rw [show (fun p : Nat × SampleCard => p.2) = (Prod.snd : Nat × SampleCard → SampleCard)
        from rfl]
      rw [List.enum_map_snd]
      exact hsc
    · exact ih (addSampleGroup ts pid st g) sg sc h hsc

/-- C5: sample cloning builds the id mapping over every payload card (keyed
by the card's original id, or its name when absent), creates a relationship
row with remapped endpoints exactly for payload relationships whose two
endpoints both resolve through the mapping — silently dropping the others —
and creates every group and every card of the payload. -/
theorem claim_C5_sample_cloning (ts : Nat) (req : CreateSampleProjectRequest)
    (p : SamplePayload) (db : DB) (hp : req.sample_data = some p) :
    ∃ db', create_sample_project ts req db = Except.ok db' ∧
      db'.groups = db.groups ++ (sampleCloneState ts p).groups ∧
      db'.cards = db.cards ++ (sampleCloneState ts p).cards ∧
      db'.relationships = db.relationships ++ sampleCloneRels ts p ∧
      ((sampleCloneRels ts p).map
          (fun r => (r.source_character_id, r.target_character_id, r.type)) =
        (p.relationships.getD []).filterMap (fun sr =>
          match mapLookup (sampleCloneState ts p).card_id_map sr.source_character_id,
              mapLookup (sampleCloneState ts p).card_id_map sr.target_character_id with
          | some s, some t => some (s, t, sr.type)
          | _, _ => none)) ∧
      ((sampleCloneState ts p).groups.map (fun g => g.name) =
        (p.groups.getD []).map (fun g => g.name)) ∧
      ((sampleCloneState ts p).cards.map (fun c => c.name) =
        ((p.groups.getD []).map (fun g => (g.cards.getD []).map (fun c => c.name))).flatten) ∧
      (∀ sg ∈ p.groups.getD [], ∀ sc ∈ sg.cards.getD [],
        (mapLookup (sampleCloneState ts p).card_id_map (sampleCardKey sc)).isSome = true) := by
  obtain ⟨sid, cname, sdata⟩ := req
  simp only at hp
  subst hp
  refine ⟨_, rfl, rfl, rfl, rfl, ?_, ?_, ?_, ?_⟩
  · unfold sampleCloneRels cloneRelationships
    rw [cloneRel_foldl_proj]
    rfl
  · unfold sampleCloneState cloneGroupsCards
    rw [groupFold_groups_names]
    rfl
  · unfold sampleCloneState cloneGroupsCards
    rw [groupFold_cards_names]
    rfl
  · intro sg hsg sc hsc
    unfold sampleCloneState cloneGroupsCards
    exact groupFold_key_present ts (sampleProjectId ts) (p.groups.getD []) ⟨[], [], []⟩
      sg sc hsg hsc

/-- Witness for C5: cloning the concrete payload creates exactly the one
resolvable relationship, with remapped endpoints, and drops the dangling
one. -/
theorem claim_C5_sample_cloning_witness :
    ((create_sample_project 7 reqC5 dbEmpty).map
        (fun d => d.relationships.map
          (fun r => (r.source_character_id, r.target_character_id, r.type)))) =
      Except.ok [("card-7-0", "card-7-1", "우정")] := by
  obtain ⟨db', h1, _, _, h3, _, _, _, _⟩ :=
    claim_C5_sample_cloning 7 reqC5 samplePayloadC5 dbEmpty rfl
  rw [h1]
  simp only [Except.map]
  rw [h3]
  rfl

end UniverseBuilder
